import Mathlib

/-!
Shallow embedding of the dungeon-crawler engine under `game-beta/models/`
(`dungeon.py`, `character.py`, `enemy.py`, `combat.py`, `merchant.py`),
together with proofs checking the specification's claims about it.

Python `int` values are embedded as `Int`, Python `float` arithmetic as `ℚ`
(the programs only ever use exactly representable constants 0.5, 1.2, 2.0 and
ratios of integers), and random draws are passed in as explicit parameters.
Catalog/database lookups are passed in as explicit read-only functions.
-/

/-- Python `int(x)` truncation toward zero on a rational. -/
def pyInt (q : ℚ) : Int :=
  if 0 ≤ q then ⌊q⌋ else ⌈q⌉

/-! ### Directions and doors (`dungeon.py`) -/

/-- The four door directions of a room. -/
inductive Dir where
  | north
  | south
  | east
  | west
deriving DecidableEq, Repr

/-- The mirrored direction: carving from `dungeon.py` always opens `dir1` on the
current room and `dir2` on the neighbour, and the source's direction table pairs
south/north, north/south, east/west, west/east. -/
def Dir.opposite : Dir → Dir
  | .north => .south
  | .south => .north
  | .east => .west
  | .west => .east

/-- The `(dx, dy)` delta of a direction, as in `direction_map` and the carving
table of `dungeon.py` (`north ↦ (0,-1)`, `south ↦ (0,1)`, `east ↦ (1,0)`,
`west ↦ (-1,0)`). -/
def Dir.delta : Dir → Int × Int
  | .north => (0, -1)
  | .south => (0, 1)
  | .east => (1, 0)
  | .west => (-1, 0)

/-- A grid coordinate `(x, y)`. -/
abbrev Cell := Int × Int

/-- Moving one step from a cell in a direction. -/
def step (p : Cell) (d : Dir) : Cell :=
  (p.1 + d.delta.1, p.2 + d.delta.2)

/-- The `doors` dictionary of a room: exactly the four fixed keys
`'north', 'south', 'east', 'west'`, each mapped to a boolean. -/
structure Doors where
  north : Bool
  south : Bool
  east : Bool
  west : Bool
deriving DecidableEq, Repr

/-- The all-closed doors dictionary a fresh `Room()` gets. -/
def Doors.closed : Doors := ⟨false, false, false, false⟩

/-- Reading a door by direction. -/
def Doors.get : Doors → Dir → Bool
  | dn, .north => dn.north
  | dn, .south => dn.south
  | dn, .east => dn.east
  | dn, .west => dn.west

/-- Setting a door by direction. -/
def Doors.set : Doors → Dir → Bool → Doors
  | dn, .north, b => { dn with north := b }
  | dn, .south, b => { dn with south := b }
  | dn, .east, b => { dn with east := b }
  | dn, .west, b => { dn with west := b }

/-- Python `room.doors.get(direction, False)` on an arbitrary string key:
the dictionary holds exactly the four direction keys. -/
def Doors.getStr (dn : Doors) (s : String) : Bool :=
  if s = "north" then dn.north
  else if s = "south" then dn.south
  else if s = "east" then dn.east
  else if s = "west" then dn.west
  else false

theorem pyInt_of_nonneg {q : ℚ} (h : 0 ≤ q) : pyInt q = ⌊q⌋ := by
  simp [pyInt, h]

theorem Doors.get_set_self (dn : Doors) (d : Dir) (b : Bool) :
    (dn.set d b).get d = b := by
  cases d <;> rfl

theorem Doors.get_set_ne (dn : Doors) (d e : Dir) (b : Bool) (h : e ≠ d) :
    (dn.set d b).get e = dn.get e := by
  cases d <;> cases e <;> first | rfl | exact absurd rfl h

theorem Dir.opposite_opposite (d : Dir) : d.opposite.opposite = d := by
  cases d <;> rfl

theorem step_opposite (p : Cell) (d : Dir) : step (step p d) d.opposite = p := by
  cases d <;> simp [step, Dir.delta, Dir.opposite]

theorem step_ne_self (p : Cell) (d : Dir) : step p d ≠ p := by
  intro h
  cases d <;> (simp [step, Dir.delta, Prod.ext_iff] at h <;> omega)

theorem step_injective_dir (p : Cell) {d e : Dir} (h : step p d = step p e) : d = e := by
  cases d <;> cases e <;> first
    | rfl
    | (exfalso; simp [step, Dir.delta, Prod.ext_iff] at h <;> omega)

/-! ### Item records, enemies, tier data, catalog (`database.py` interface) -/

/-- An item record as produced by the catalog (`database.py` `get_item`):
the named fields the core reads from the item dictionaries. -/
structure Item where
  name : String
  type : String
  tier : Int
  price_copper : Int
  base_damage_min : ℚ
  base_damage_max : ℚ
  base_defense : ℚ
  effect : String
deriving DecidableEq, Repr

/-- An enemy definition row from the catalog (`get_enemy`). -/
structure EnemyData where
  attack : Int
  defense : Int
  health : Int
  xp_value : Int
  min_copper : Int
  max_copper : Int
  common_drops : List String
  rare_drops : List String
  spawn_chance : ℚ
deriving DecidableEq, Repr

/-- A tier row from the catalog (`get_tier_data` in `database.py` always fills
every key, applying its defaults for missing numeric values). -/
structure TierData where
  tier : Int
  title : String
  attack : Int
  defense : Int
  health : Int
  min_xp : Int
  weapon : Option String
  armor : Option String
  special_ability : String
deriving DecidableEq, Repr

/-- The read-only catalog (`Database`) as consumed by the models. -/
structure Db where
  getItem : String → Option Item
  getEnemy : String → Option EnemyData
  getTierData : Int → Option TierData

/-! ### Enemy (`enemy.py`) -/

/-- A live `Enemy` after `__post_init__` has run (`current_health` resolved). -/
structure Enemy where
  name : String
  tier : Int
  current_health : Int
  attack : Int
  defense : Int
  health : Int
  xp_value : Int
  min_copper : Int
  max_copper : Int
  common_drops : List String
  rare_drops : List String
  spawn_chance : ℚ
  is_player : Bool
deriving DecidableEq, Repr

/-- Drop-list cleaning in `Enemy._load_stats`: keep the stripped strings that
are non-empty after stripping. -/
def cleanDrops (l : List String) : List String :=
  (l.filter fun s => s.trim ≠ "").map String.trim

/-- `Enemy._load_stats`: overwrite the stats from the catalog row for
`self.name`, clamped exactly as in the source; `None` means the lookup failed
and the `ValueError` propagates out of `__post_init__`. -/
def Enemy.load_stats (db : Db) (e : Enemy) : Option Enemy :=
  match db.getEnemy e.name with
  | none => none
  | some d =>
    let minc := max 0 d.min_copper
    some { e with
      attack := max 0 d.attack
      defense := max 0 d.defense
      health := max 1 d.health
      xp_value := max 1 d.xp_value
      min_copper := minc
      max_copper := max minc d.max_copper
      common_drops := cleanDrops d.common_drops
      rare_drops := cleanDrops d.rare_drops
      spawn_chance := max (1/100 : ℚ) (min 1 d.spawn_chance) }

/-- The `Enemy(...)` constructor including `__post_init__`: load stats from the
catalog, then default `current_health` to `health` when it was passed as
`None`. -/
def Enemy.construct (db : Db) (name : String) (tier : Int)
    (current_health : Option Int) (attack defense health xp_value min_copper
    max_copper : Int) (common_drops rare_drops : List String)
    (spawn_chance : ℚ) : Option Enemy :=
  match Enemy.load_stats db
      { name := name, tier := tier, current_health := 0, attack := attack,
        defense := defense, health := health, xp_value := xp_value,
        min_copper := min_copper, max_copper := max_copper,
        common_drops := common_drops, rare_drops := rare_drops,
        spawn_chance := spawn_chance, is_player := false } with
  | none => none
  | some e =>
    some { e with current_health := current_health.getD e.health }

/-- `Enemy.take_damage`: negative damage raises, is caught, and the fail-safe
returns `True` with the state unchanged; otherwise clamp at 0 and report
whether the enemy is still alive. -/
def Enemy.take_damage (e : Enemy) (damage : Int) : Bool × Enemy :=
  if damage < 0 then (true, e)
  else
    let nh := max 0 (e.current_health - damage)
    (decide (0 < nh), { e with current_health := nh })

/-- `Enemy.heal`: negative amounts raise, are caught, and return 0 with no
change; otherwise clamp at `health` and return the amount actually healed. -/
def Enemy.heal (e : Enemy) (amount : Int) : Int × Enemy :=
  if amount < 0 then (0, e)
  else
    let nh := min e.health (e.current_health + amount)
    (nh - e.current_health, { e with current_health := nh })

/-- `Enemy.calculate_total_attack`. -/
def Enemy.calculate_total_attack (e : Enemy) : Int := max 0 e.attack

/-- `Enemy.calculate_total_defense`. -/
def Enemy.calculate_total_defense (e : Enemy) : Int := max 0 e.defense

/-! ### Character (`character.py`) -/

/-- A live `Character` after `__post_init__` has run: the dataclass fields plus
the tier-derived stats `_load_stats` installs. -/
structure Character where
  name : String
  age : Int
  tier : Int
  xp : Int
  current_health : Int
  inventory : List Item
  equipped_weapon : Option Item
  equipped_armor : Option Item
  equipped_shield : Option Item
  money : Int
  is_player : Bool
  title : String
  base_attack : Int
  base_defense : Int
  max_health : Int
  special_ability : String
deriving DecidableEq, Repr

/-- `Character._load_stats`: reload the tier-derived base stats from the
catalog row for `self.tier`; `None` means the lookup failed and the
`ValueError` propagates. -/
def Character.load_stats (db : Db) (c : Character) : Option Character :=
  match db.getTierData c.tier with
  | none => none
  | some td =>
    some { c with
      title := td.title
      base_attack := td.attack
      base_defense := td.defense
      max_health := td.health
      special_ability := td.special_ability }

/-- `Character.take_damage` (same error handling as the enemy version). -/
def Character.take_damage (c : Character) (damage : Int) : Bool × Character :=
  if damage < 0 then (true, c)
  else
    let nh := max 0 (c.current_health - damage)
    (decide (0 < nh), { c with current_health := nh })

/-- `Character.heal`. -/
def Character.heal (c : Character) (amount : Int) : Int × Character :=
  if amount < 0 then (0, c)
  else
    let nh := min c.max_health (c.current_health + amount)
    (nh - c.current_health, { c with current_health := nh })

/-- `Character.add_item` on an item record: append a copy to the inventory
(the string overload that re-queries the catalog is not exercised by the
operations modelled here). -/
def Character.add_item (c : Character) (item : Item) : Character :=
  { c with inventory := c.inventory ++ [item] }

/-- `Character.remove_item`: delete the first inventory entry with the same
name, reporting whether one was found. -/
def Character.remove_item (c : Character) (item : Item) : Bool × Character :=
  match c.inventory.findIdx? (fun i => i.name = item.name) with
  | some j => (true, { c with inventory := c.inventory.eraseIdx j })
  | none => (false, c)

/-- `Character.calculate_total_attack`: base attack plus the average of the
equipped weapon's damage range, truncated, never negative. -/
def Character.calculate_total_attack (c : Character) : Int :=
  let total : ℚ := (c.base_attack : ℚ) +
    (match c.equipped_weapon with
     | some w => (w.base_damage_min + w.base_damage_max) / 2
     | none => 0)
  max 0 (pyInt total)

/-- `Character.calculate_total_defense`. -/
def Character.calculate_total_defense (c : Character) : Int :=
  let total : ℚ := (c.base_defense : ℚ) +
    (match c.equipped_armor with
     | some a => a.base_defense
     | none => 0) +
    (match c.equipped_shield with
     | some s => s.base_defense
     | none => 0)
  max 0 (pyInt total)

/-- `Character.can_afford`: a negative price raises, is caught, and yields
`False`. -/
def Character.can_afford (c : Character) (price : Int) : Bool :=
  if price < 0 then false else decide (price ≤ c.money)

/-- `Character._level_up`: bump the tier, reload stats, rescale health to the
old fraction. A failing stat reload leaves the tier bumped (the exception is
swallowed by `_check_level_up`); a zero old maximum health makes the fraction
raise `ZeroDivisionError` after the stats were already reloaded. -/
def Character.level_up (db : Db) (c : Character) : Character :=
  let old_health := c.max_health
  let c1 := { c with tier := c.tier + 1 }
  match Character.load_stats db c1 with
  | none => c1
  | some c2 =>
    if old_health = 0 then c2
    else
      let health_percent : ℚ := (c.current_health : ℚ) / (old_health : ℚ)
      { c2 with current_health := pyInt ((c2.max_health : ℚ) * health_percent) }

/-- `Character._check_level_up`: level up exactly once when the immediate next
tier exists and its `min_xp` threshold is met. -/
def Character.check_level_up (db : Db) (c : Character) : Character :=
  match db.getTierData (c.tier + 1) with
  | none => c
  | some td => if td.min_xp ≤ c.xp then Character.level_up db c else c

/-- `Character.add_xp`: negative amounts raise, are caught, and change
nothing; otherwise add the amount and run the level-up check. -/
def Character.add_xp (db : Db) (c : Character) (xp_amount : Int) : Character :=
  if xp_amount < 0 then c
  else Character.check_level_up db { c with xp := c.xp + xp_amount }

/-! ### Rooms and the dungeon grid (`dungeon.py`) -/

/-- A `Room` of the dungeon. -/
structure Room where
  enemies : List Enemy
  items : List Item
  is_cleared : Bool
  is_visible : Bool
  has_merchant : Bool
  merchant_visited : Bool
  has_treasure : Bool
  treasure_looted : Bool
  is_end_room : Bool
  doors : Doors
deriving DecidableEq, Repr

/-- A fresh `Room()` with all defaults. -/
def Room.default : Room :=
  { enemies := [], items := [], is_cleared := false, is_visible := false,
    has_merchant := false, merchant_visited := false, has_treasure := false,
    treasure_looted := false, is_end_room := false, doors := Doors.closed }

/-- In-bounds test `0 <= x < size and 0 <= y < size`. -/
def inBounds (size : Nat) (p : Cell) : Prop :=
  0 ≤ p.1 ∧ p.1 < (size : Int) ∧ 0 ≤ p.2 ∧ p.2 < (size : Int)

instance (size : Nat) (p : Cell) : Decidable (inBounds size p) := by
  unfold inBounds; infer_instance

/-- The set of grid cells of a `size × size` dungeon. -/
def grid (size : Nat) : Finset Cell :=
  Finset.Icc 0 ((size : Int) - 1) ×ˢ Finset.Icc 0 ((size : Int) - 1)

theorem mem_grid {size : Nat} {p : Cell} : p ∈ grid size ↔ inBounds size p := by
  cases p with
  | mk x y =>
    simp only [grid, inBounds, Finset.mem_product, Finset.mem_Icc]
    omega

theorem grid_card (size : Nat) : (grid size).card = size * size := by
  simp only [grid, Finset.card_product, Int.card_Icc]
  have : ((size : Int) - 1 + 1 - 0).toNat = size := by omega
  rw [this]

/-- The dungeon state: the `y`-row/`x`-column grid `self._rooms` is embedded as
a function from coordinates `(x, y)` to rooms. -/
structure Dungeon where
  tier : Nat
  size : Nat
  player_pos : Cell
  rooms : Cell → Room

/-- `self._rooms[y][x] = room` as a functional update. -/
def setRoom (rooms : Cell → Room) (p : Cell) (rm : Room) : Cell → Room :=
  Function.update rooms p rm

/-- Update one room in place. -/
def updateRoomAt (dg : Dungeon) (p : Cell) (f : Room → Room) : Dungeon :=
  { dg with rooms := setRoom dg.rooms p (f (dg.rooms p)) }

/-- `Dungeon.get_current_room`. -/
def Dungeon.get_current_room (dg : Dungeon) : Room :=
  dg.rooms dg.player_pos

/-- `Dungeon._update_visibility`: reveal every in-bounds room within circular
distance 4 (`dx*dx + dy*dy <= 16`) of the player, leaving everything else
untouched; visibility is only ever set, never cleared. -/
def Dungeon.update_visibility (dg : Dungeon) : Dungeon :=
  let x := dg.player_pos.1
  let y := dg.player_pos.2
  { dg with rooms := fun q =>
      if inBounds dg.size q ∧ (q.1 - x) * (q.1 - x) + (q.2 - y) * (q.2 - y) ≤ 16 then
        { dg.rooms q with is_visible := true }
      else dg.rooms q }

/-- `direction_map` of `Dungeon.move_player`. -/
def direction_map (s : String) : Option (Int × Int) :=
  if s = "north" then some (0, -1)
  else if s = "south" then some (0, 1)
  else if s = "east" then some (1, 0)
  else if s = "west" then some (-1, 0)
  else none

/-- `Dungeon.move_player`: fail when the current room's door for the requested
key is not open, when the key is not a direction, or when the destination is
out of bounds; otherwise move and update visibility. -/
def Dungeon.move_player (dg : Dungeon) (direction : String) : Bool × Dungeon :=
  if ¬ (dg.get_current_room.doors.getStr direction) then (false, dg)
  else
    match direction_map direction with
    | none => (false, dg)
    | some (dx, dy) =>
      let new_x := dg.player_pos.1 + dx
      let new_y := dg.player_pos.2 + dy
      if inBounds dg.size (new_x, new_y) then
        (true, Dungeon.update_visibility { dg with player_pos := (new_x, new_y) })
      else (false, dg)

/-! ### Maze carving (`Dungeon._generate_maze`) -/

/-- Opening the mirrored pair of doors on the edge taken:
`rooms[y][x].doors[dir1] = True; rooms[new_y][new_x].doors[dir2] = True`. -/
def openEdge (rooms : Cell → Room) (p : Cell) (d : Dir) : Cell → Room :=
  let rooms1 := setRoom rooms p { rooms p with doors := (rooms p).doors.set d true }
  setRoom rooms1 (step p d)
    { rooms1 (step p d) with doors := (rooms1 (step p d)).doors.set d.opposite true }

/-- The recursion state of `carve_path`: the room grid, the shared `visited`
set, and a counter indexing which shuffled direction list the next call
consumes. -/
structure CarveState where
  rooms : Cell → Room
  visited : Finset Cell
  ctr : Nat

mutual

/-- One `carve_path(x, y, visited)` call: mark the cell visited, consume the
next shuffled direction list, and walk it.  The recursion of the source is
re-expressed with explicit fuel; `carveCell` is only applied with enough fuel
to cover every cell that can still be visited, so the fuel never runs out. -/
def carveCell (size : Nat) (rand : Nat → List Dir) :
    Nat → Cell → CarveState → CarveState
  | 0, _, s => s
  | fuel + 1, p, s =>
    carveDirs size rand fuel p (rand s.ctr)
      { rooms := s.rooms, visited := insert p s.visited, ctr := s.ctr + 1 }
termination_by fuel p s => (fuel, 0)

/-- The `for dx, dy, dir1, dir2 in directions:` loop body of `carve_path`:
recurse into each still-unvisited in-bounds neighbour after opening the
mirrored doors on the edge taken. -/
def carveDirs (size : Nat) (rand : Nat → List Dir) :
    Nat → Cell → List Dir → CarveState → CarveState
  | _, _, [], s => s
  | fuel, p, d :: ds, s =>
    if inBounds size (step p d) ∧ step p d ∉ s.visited then
      carveDirs size rand fuel p ds
        (carveCell size rand fuel (step p d)
          { rooms := openEdge s.rooms p d, visited := s.visited, ctr := s.ctr })
    else
      carveDirs size rand fuel p ds s
termination_by fuel p ds s => (fuel, ds.length + 1)

end

/-- `Dungeon._generate_maze`: run `carve_path(0, 0, set())` on the room grid.
`size * size` fuel covers every cell. -/
def generate_maze (size : Nat) (rand : Nat → List Dir) (rooms : Cell → Room) :
    CarveState :=
  carveCell size rand (size * size) (0, 0) { rooms := rooms, visited := ∅, ctr := 0 }

/-! ### Dungeon generation pipeline (`Dungeon._generate_dungeon`) -/

/-- The scan order `for x in range(size) for y in range(size)` used by the
treasure/merchant candidate comprehensions. -/
def scanXY (size : Nat) : List Cell :=
  (List.range size).flatMap fun x => (List.range size).map fun y => ((x : Int), (y : Int))

/-- The scan order `for y in range(size): for x in range(size)` used by
`_populate_rooms` and `_place_end_room`. -/
def scanYX (size : Nat) : List Cell :=
  (List.range size).flatMap fun y => (List.range size).map fun x => ((x : Int), (y : Int))

/-- `Dungeon._populate_rooms`: every non-start grid room independently rolls
for an enemy; the roll and the tier-weighted enemy draw are summarised by the
injected `spawn` choice function (`None` = no spawn or no enemy produced). -/
def populate_rooms (size : Nat) (spawn : Cell → Option Enemy)
    (rooms : Cell → Room) : Cell → Room :=
  fun p =>
    if inBounds size p ∧ p ≠ (0, 0) then
      match spawn p with
      | some e => { rooms p with enemies := (rooms p).enemies ++ [e] }
      | none => rooms p
    else rooms p

/-- The `empty_rooms` candidate list of `_place_treasure_rooms`. -/
def treasureCandidates (size : Nat) (rooms : Cell → Room) : List Cell :=
  (scanXY size).filter fun p => p ≠ (0, 0) ∧ (rooms p).enemies = []

/-- The `for _ in range(num_treasures)` loop of `_place_treasure_rooms`:
pop a randomly chosen candidate (the `randrange` draws are injected as `tpick`,
reduced mod the current length) and flag it, stopping early when the
candidates run out. -/
def treasureLoop (tpick : Nat → Nat) :
    Nat → Nat → List Cell → (Cell → Room) → (Cell → Room)
  | 0, _, _, rooms => rooms
  | n + 1, i, cands, rooms =>
    if h : cands.length = 0 then rooms
    else
      let k := tpick i % cands.length
      let c := cands.get ⟨k, Nat.mod_lt _ (Nat.pos_of_ne_zero h)⟩
      treasureLoop tpick n (i + 1) (cands.eraseIdx k)
        (setRoom rooms c { rooms c with has_treasure := true })

/-- `Dungeon._place_treasure_rooms` (the treasure count `randint(1, tier)` is
injected as `num`). -/
def place_treasure_rooms (size num : Nat) (tpick : Nat → Nat)
    (rooms : Cell → Room) : Cell → Room :=
  treasureLoop tpick num 0 (treasureCandidates size rooms) rooms

/-- `Dungeon._place_merchant`: `random.choice` on the empty-room candidates is
injected as the index `mpick` (reduced mod the length). -/
def place_merchant (size : Nat) (mpick : Nat) (rooms : Cell → Room) :
    Cell → Room :=
  let cands := (scanXY size).filter fun p =>
    p ≠ (0, 0) ∧ (rooms p).enemies = [] ∧ (rooms p).has_treasure = false
  if h : cands = [] then rooms
  else
    let c := cands.get ⟨mpick % cands.length, Nat.mod_lt _ (List.length_pos.mpr h)⟩
    setRoom rooms c { rooms c with has_merchant := true }

/-- `Dungeon._calculate_manhattan_distance`. -/
def manhattan (a b : Cell) : Int := |a.1 - b.1| + |a.2 - b.2|

/-- The scan of `_place_end_room`: keep the first strict improvement of the
Manhattan distance over the row-major order. -/
def farthestFrom (size : Nat) (pos : Cell) : Option Cell :=
  ((scanYX size).foldl
    (fun acc c => if acc.2 < manhattan c pos then (some c, manhattan c pos) else acc)
    ((none : Option Cell), (0 : Int))).1

/-- `Dungeon._place_end_room`. -/
def place_end_room (size : Nat) (rooms : Cell → Room) (pos : Cell) : Cell → Room :=
  match farthestFrom size pos with
  | none => rooms
  | some c => setRoom rooms c { rooms c with is_end_room := true }

/-- All random draws consumed by one dungeon generation. -/
structure GenOracle where
  shuffles : Nat → List Dir
  spawn : Cell → Option Enemy
  numTreasures : Nat
  tpick : Nat → Nat
  mpick : Nat

/-- `Dungeon._generate_dungeon` followed by the visibility seeding of the
constructor path: maze, population, treasure, merchant, end room, start-room
visibility, visibility update. -/
def generate_dungeon (tier size : Nat) (g : GenOracle) : Dungeon :=
  let rooms0 : Cell → Room := fun _ => Room.default
  let rooms1 := (generate_maze size g.shuffles rooms0).rooms
  let rooms2 := populate_rooms size g.spawn rooms1
  let rooms3 := place_treasure_rooms size g.numTreasures g.tpick rooms2
  let rooms4 := place_merchant size g.mpick rooms3
  let rooms5 := place_end_room size rooms4 (0, 0)
  let rooms6 := setRoom rooms5 (0, 0) { rooms5 (0, 0) with is_visible := true }
  Dungeon.update_visibility
    { tier := tier, size := size, player_pos := (0, 0), rooms := rooms6 }

/-- `Dungeon.__init__` for a fresh dungeon: the two `ValueError` validations,
then generation. -/
def Dungeon.new (tier size : Nat) (g : GenOracle) : Except String Dungeon :=
  if tier < 1 then .error "Tier must be at least 1"
  else if size < 5 then .error "Dungeon size must be at least 5x5"
  else .ok (generate_dungeon tier size g)

/-! ### The open-door graph -/

/-- The doors of every room — the only part of the dungeon state the maze
claims are about. -/
def doorMap (rooms : Cell → Room) : Cell → Doors := fun p => (rooms p).doors

/-- One open door leading from `u` to `v`. -/
def doorAdj (dm : Cell → Doors) (u v : Cell) : Prop :=
  ∃ d : Dir, (dm u).get d = true ∧ step u d = v

/-- Reachability through open doors. -/
def Reach (dm : Cell → Doors) : Cell → Cell → Prop :=
  Relation.ReflTransGen (doorAdj dm)

/-- The symmetrised open-door adjacency. -/
def Er (dm : Cell → Doors) (u v : Cell) : Prop :=
  doorAdj dm u v ∨ doorAdj dm v u

/-- Each open door edge counted once, at its west/north endpoint. -/
def canonEdges (size : Nat) (dm : Cell → Doors) : Finset (Cell × Dir) :=
  ((grid size) ×ˢ ({Dir.east, Dir.south} : Finset Dir)).filter
    fun cd => (dm cd.1).get cd.2 = true

instance : Fintype Dir :=
  ⟨⟨{Dir.north, Dir.south, Dir.east, Dir.west}, by decide⟩, fun d => by cases d <;> decide⟩

instance (dm : Cell → Doors) (u v : Cell) : Decidable (doorAdj dm u v) := by
  unfold doorAdj; infer_instance

instance (dm : Cell → Doors) (u v : Cell) : Decidable (Er dm u v) := by
  unfold Er; infer_instance

/-- The open-door graph on the grid cells of a `size × size` dungeon. -/
def mazeGraph (size : Nat) (dm : Cell → Doors) :
    SimpleGraph {p : Cell // p ∈ grid size} where
  Adj u v := Er dm u.1 v.1
  symm := by
    intro u v h
    exact Or.symm h
  loopless := by
    rintro u (⟨d, _, hstep⟩ | ⟨d, _, hstep⟩) <;> exact step_ne_self u.1 d hstep

instance (size : Nat) (dm : Cell → Doors) : DecidableRel (mazeGraph size dm).Adj :=
  fun _ _ => by unfold mazeGraph; infer_instance

/-! ### Combat resolver (`combat.py`) -/

/-- `CRITICAL_HIT_MULTIPLIER` from `config.py`. -/
def CRITICAL_HIT_MULTIPLIER : ℚ := 2

/-- `D20CombatSystem.calculate_hit` with the d20 roll injected and the two
combatants summarised by their total attack, total defense and player flag
(exactly the data the method reads from them): natural 20 always hits and
crits, natural 1 always misses, otherwise compare
`roll + attack_bonus` against `10 + defense`. -/
def calculate_hit (roll attackTotal : Int) (is_player : Bool)
    (defenseTotal : Int) : Bool × Int × Bool :=
  if roll = 20 then (true, roll, true)
  else if roll = 1 then (false, roll, false)
  else
    let attack_bonus := attackTotal + (if is_player then 2 else 0)
    let defense_class := 10 + defenseTotal
    (decide (defense_class ≤ roll + attack_bonus), roll, false)

/-- `D20CombatSystem._calculate_damage` with the uniform weapon-damage draw
injected as `draw`: total attack, plus the weapon draw when a weapon is
equipped, reduced by half the defense, floored at 1, doubled on a critical,
scaled by 1.2 for players, truncated to an integer and floored at 1 again. -/
def calculate_damage (attackTotal : Int) (weapon : Option Item) (draw : ℚ)
    (defenseTotal : Int) (is_crit is_player : Bool) : Int :=
  let base_damage : ℚ := (attackTotal : ℚ) +
    (match weapon with
     | some _ => draw
     | none => 0)
  let damage1 : ℚ := max 1 (base_damage - (defenseTotal : ℚ) / 2)
  let damage2 : ℚ := if is_crit then damage1 * CRITICAL_HIT_MULTIPLIER else damage1
  let damage3 : ℚ := if is_player then damage2 * (12 / 10 : ℚ) else damage2
  max 1 (pyInt damage3)

/-- The §4.3 damage pipeline exactly as the specification words it, for
comparison with `calculate_damage`. -/
def specDamage (attackTotal : Int) (weapon : Option Item) (draw : ℚ)
    (defenseTotal : Int) (is_crit is_player : Bool) : Int :=
  let base : ℚ := (attackTotal : ℚ) + (if weapon.isSome then draw else 0)
  let reduced : ℚ := base - (defenseTotal : ℚ) / 2
  let floored : ℚ := max 1 reduced
  let afterCrit : ℚ := if is_crit then floored * 2 else floored
  let afterPlayer : ℚ := if is_player then afterCrit * (12 / 10 : ℚ) else afterCrit
  max 1 (pyInt afterPlayer)

/-! ### Merchant (`merchant.py`) -/

/-- The merchant's state consumed by buy/sell: its stocked inventory. -/
structure Merchant where
  inventory : List Item

/-- `Merchant._apply_price_variation` with the `uniform(0.8, 1.2)` draw
injected as `u`: perturb the stocked price, floored at 1. -/
def apply_price_variation (item : Item) (u : ℚ) : Item :=
  { item with price_copper := max 1 (pyInt ((item.price_copper : ℚ) * u)) }

/-- `Merchant.get_item_value`: half the item's stored price, floored at 1
(`_sell_price_ratio = 0.5`). -/
def Merchant.get_item_value (item : Item) : Int :=
  max 1 (pyInt ((item.price_copper : ℚ) * (1 / 2 : ℚ)))

/-- `Merchant.buy_item`: locate the first stocked item of that name, check
affordability, then debit the buyer, hand over a copy and remove one unit of
stock. -/
def Merchant.buy_item (m : Merchant) (player : Character) (item_name : String) :
    Bool × Merchant × Character :=
  match m.inventory.find? (fun i => i.name == item_name) with
  | none => (false, m, player)
  | some item =>
    if ¬ player.can_afford item.price_copper then (false, m, player)
    else
      let p1 := Character.add_item
        { player with money := player.money - item.price_copper } item
      (true, { m with inventory := m.inventory.erase item }, p1)

/-- `Merchant.sell_item`: fail when the item record is not in the seller's
inventory; otherwise credit the sell value and remove the item.  The merchant
stock is untouched. -/
def Merchant.sell_item (m : Merchant) (player : Character) (item : Item) :
    Bool × Merchant × Character :=
  if item ∈ player.inventory then
    let sell_price := Merchant.get_item_value item
    let p1 := { player with money := player.money + sell_price }
    (true, m, (Character.remove_item p1 item).2)
  else (false, m, player)

/-! ### Snapshots and reconstruction (`to_dict` / constructor round trips) -/

/-- `Enemy.to_dict`. -/
structure EnemySnap where
  name : String
  tier : Int
  current_health : Int
  attack : Int
  defense : Int
  health : Int
  xp_value : Int
  min_copper : Int
  max_copper : Int
  common_drops : List String
  rare_drops : List String
  spawn_chance : ℚ
deriving DecidableEq, Repr

/-- `Enemy.to_dict`. -/
def Enemy.to_dict (e : Enemy) : EnemySnap :=
  { name := e.name, tier := e.tier, current_health := e.current_health,
    attack := e.attack, defense := e.defense, health := e.health,
    xp_value := e.xp_value, min_copper := e.min_copper,
    max_copper := e.max_copper, common_drops := e.common_drops,
    rare_drops := e.rare_drops, spawn_chance := e.spawn_chance }

/-- `Enemy(**enemy_data)` on a saved snapshot: the dataclass constructor with
every field from the snapshot, then `__post_init__`. -/
def reconstructEnemy (db : Db) (s : EnemySnap) : Option Enemy :=
  Enemy.construct db s.name s.tier (some s.current_health) s.attack s.defense
    s.health s.xp_value s.min_copper s.max_copper s.common_drops s.rare_drops
    s.spawn_chance

/-- `Character.to_dict`. -/
structure CharacterSnap where
  name : String
  age : Int
  tier : Int
  xp : Int
  current_health : Int
  inventory : List Item
  equipped_weapon : Option Item
  equipped_armor : Option Item
  equipped_shield : Option Item
  money : Int
deriving DecidableEq, Repr

/-- `Character.to_dict`. -/
def Character.to_dict (c : Character) : CharacterSnap :=
  { name := c.name, age := c.age, tier := c.tier, xp := c.xp,
    current_health := c.current_health, inventory := c.inventory,
    equipped_weapon := c.equipped_weapon, equipped_armor := c.equipped_armor,
    equipped_shield := c.equipped_shield, money := c.money }

/-- `Character._initialize_starting_equipment`: five potions when the catalog
has them, starting money 100, then the tier's starting weapon and armor when
the tier row names them and the catalog provides them. -/
def initialize_starting_equipment (db : Db) (c : Character) : Character :=
  let c1 :=
    match db.getItem "Lesser Health Potion" with
    | some hp => { c with inventory := c.inventory ++ List.replicate 5 hp }
    | none => c
  let c2 := { c1 with money := 100 }
  match db.getTierData c2.tier with
  | none => c2
  | some td =>
    let c3 :=
      match td.weapon with
      | some wname =>
        match db.getItem wname with
        | some w => { c2 with equipped_weapon := some w }
        | none => c2
      | none => c2
    match td.armor with
    | some aname =>
      match db.getItem aname with
      | some a => { c3 with equipped_armor := some a }
      | none => c3
    | none => c3

/-- `Character(**save_data)` on a saved snapshot, including `__post_init__`:
load the tier stats (failure propagates), keep the saved health (it is never
`None` in a snapshot), and re-run the starting-equipment initialisation
whenever the snapshot has an empty inventory and no equipped weapon. -/
def Character.construct (db : Db) (s : CharacterSnap) : Option Character :=
  let c0 : Character :=
    { name := s.name, age := s.age, tier := s.tier, xp := s.xp,
      current_health := s.current_health, inventory := s.inventory,
      equipped_weapon := s.equipped_weapon, equipped_armor := s.equipped_armor,
      equipped_shield := s.equipped_shield, money := s.money, is_player := true,
      title := "", base_attack := 1, base_defense := 1, max_health := 20,
      special_ability := "none" }
  match Character.load_stats db c0 with
  | none => none
  | some c1 =>
    if c1.inventory = [] ∧ c1.equipped_weapon = none then
      some (initialize_starting_equipment db c1)
    else some c1

/-- `Room.to_dict`. -/
structure RoomSnap where
  enemies : List EnemySnap
  items : List Item
  is_cleared : Bool
  is_visible : Bool
  has_merchant : Bool
  merchant_visited : Bool
  has_treasure : Bool
  treasure_looted : Bool
  is_end_room : Bool
  doors : Doors
deriving DecidableEq, Repr

/-- `Room.to_dict`. -/
def Room.to_dict (rm : Room) : RoomSnap :=
  { enemies := rm.enemies.map Enemy.to_dict, items := rm.items,
    is_cleared := rm.is_cleared, is_visible := rm.is_visible,
    has_merchant := rm.has_merchant, merchant_visited := rm.merchant_visited,
    has_treasure := rm.has_treasure, treasure_looted := rm.treasure_looted,
    is_end_room := rm.is_end_room, doors := rm.doors }

/-- One room of `Dungeon._load_rooms`: enemies that fail to reconstruct are
skipped (`continue`), everything else is copied. -/
def reconstructRoom (db : Db) (s : RoomSnap) : Room :=
  { enemies := s.enemies.filterMap (reconstructEnemy db), items := s.items,
    is_cleared := s.is_cleared, is_visible := s.is_visible,
    has_merchant := s.has_merchant, merchant_visited := s.merchant_visited,
    has_treasure := s.has_treasure, treasure_looted := s.treasure_looted,
    is_end_room := s.is_end_room, doors := s.doors }

/-- `Dungeon.to_dict`. -/
structure DungeonSnap where
  tier : Nat
  size : Nat
  player_pos : Cell
  rooms : List (List RoomSnap)
deriving DecidableEq, Repr

/-- `Dungeon.to_dict`: the nested `rooms` grid is written row by row. -/
def Dungeon.to_dict (dg : Dungeon) : DungeonSnap :=
  { tier := dg.tier, size := dg.size, player_pos := dg.player_pos,
    rooms := (List.range dg.size).map fun (y : Nat) =>
      (List.range dg.size).map fun (x : Nat) =>
        Room.to_dict (dg.rooms ((x : Int), (y : Int))) }

/-- `Dungeon._load_rooms` as a room-grid function: `self._rooms[y][x]` is row
`y`, column `x` of the saved nested list (the saved grids are only ever read
at in-bounds, hence non-negative, coordinates). -/
def load_rooms (db : Db) (rows : List (List RoomSnap)) : Cell → Room :=
  fun p =>
    if 0 ≤ p.1 ∧ 0 ≤ p.2 then
      match rows.get? p.2.toNat with
      | some row =>
        match row.get? p.1.toNat with
        | some rs => reconstructRoom db rs
        | none => Room.default
      | none => Room.default
    else Room.default

/-- `Dungeon(**save_data)` on a saved snapshot: validation, player-position
clamping, and `_load_rooms`.  A falsy `rooms` value would instead regenerate a
fresh dungeon; that branch never runs on the snapshot of a live dungeon
(whose grid is non-empty) and is returned as `none` here. -/
def Dungeon.construct (db : Db) (s : DungeonSnap) : Option Dungeon :=
  if s.tier < 1 then none
  else if s.size < 5 then none
  else if s.rooms = [] then none
  else
    let pos : Cell :=
      (min (max 0 s.player_pos.1) ((s.size : Int) - 1),
       min (max 0 s.player_pos.2) ((s.size : Int) - 1))
    some { tier := s.tier, size := s.size, player_pos := pos,
           rooms := load_rooms db s.rooms }

/-! ### The room-mutating operations of the game loop (`game_app.py`,
`main_window.py`) -/

/-- Every operation of the running game that touches the dungeon after
generation: movement (`move_player`, including the random-adjacent relocation
after fleeing, which goes through `move_player`), treasure looting
(`room.treasure_looted = True`), combat victory
(`room.is_cleared = True; room.enemies = []`), and visiting a merchant
(`room.merchant_visited = True`). -/
inductive DungeonOp where
  | move (direction : String)
  | lootTreasure
  | clearRoom
  | visitMerchant

/-- Apply one game-loop operation to the dungeon. -/
def applyOp (dg : Dungeon) : DungeonOp → Dungeon
  | .move direction => (dg.move_player direction).2
  | .lootTreasure => updateRoomAt dg dg.player_pos fun rm => { rm with treasure_looted := true }
  | .clearRoom => updateRoomAt dg dg.player_pos fun rm => { rm with is_cleared := true, enemies := [] }
  | .visitMerchant => updateRoomAt dg dg.player_pos fun rm => { rm with merchant_visited := true }

/-- A whole play session: a sequence of game-loop operations. -/
def applyOps (dg : Dungeon) : List DungeonOp → Dungeon
  | [] => dg
  | op :: ops => applyOps (applyOp dg op) ops

/-! ### Helper lemmas about the carving primitives -/

/-- A door being open, read off a door map. -/
def rOpen (dm : Cell → Doors) (u : Cell) (d : Dir) : Prop := (dm u).get d = true

theorem Dir.opposite_ne (d : Dir) : d.opposite ≠ d := by cases d <;> decide

theorem doorMap_openEdge (rooms : Cell → Room) (p : Cell) (d : Dir) (u : Cell) (e : Dir) :
    rOpen (doorMap (openEdge rooms p d)) u e ↔
      (u = p ∧ e = d) ∨ (u = step p d ∧ e = d.opposite) ∨ rOpen (doorMap rooms) u e := by
  have hne : step p d ≠ p := step_ne_self p d
  by_cases hu1 : u = step p d
  · subst hu1
    simp only [rOpen, doorMap, openEdge, setRoom, Function.update_same,
      Function.update_noteq hne]
    by_cases he : e = d.opposite
    · subst he
      simp [Doors.get_set_self, hne]
    · rw [Doors.get_set_ne _ _ _ _ he]
      by_cases hu2 : step p d = p
      · exact absurd hu2 hne
      · simp [hne, he]
  · by_cases hu2 : u = p
    · subst hu2
      simp only [rOpen, doorMap, openEdge, setRoom, Function.update_noteq hu1,
        Function.update_same]
      by_cases he : e = d
      · subst he
        simp [Doors.get_set_self, hu1]
      · rw [Doors.get_set_ne _ _ _ _ he]
        simp [he, hu1]
    · simp only [rOpen, doorMap, openEdge, setRoom, Function.update_noteq hu1,
        Function.update_noteq hu2]
      simp [hu1, hu2]

/-- The canonical representative of the edge opened by `openEdge _ p d`:
its west/north endpoint with its east/south door. -/
def canonPair (p : Cell) (d : Dir) : Cell × Dir :=
  match d with
  | .east => (p, .east)
  | .south => (p, .south)
  | .north => (step p .north, .south)
  | .west => (step p .west, .east)

theorem canonEdges_openEdge (size : Nat) (rooms : Cell → Room) (p : Cell) (d : Dir)
    (hp : p ∈ grid size) (hq : step p d ∈ grid size)
    (hclosed : ¬ rOpen (doorMap rooms) (canonPair p d).1 (canonPair p d).2) :
    canonEdges size (doorMap (openEdge rooms p d)) =
      insert (canonPair p d) (canonEdges size (doorMap rooms)) := by
  ext cd
  obtain ⟨c, e⟩ := cd
  have hmem : ∀ rm : Cell → Room, (c, e) ∈ canonEdges size (doorMap rm) ↔
      (c ∈ grid size ∧ (e = Dir.east ∨ e = Dir.south)) ∧ rOpen (doorMap rm) c e := by
    intro rm
    simp only [canonEdges, Finset.mem_filter, Finset.mem_product, Finset.mem_insert,
      Finset.mem_singleton, rOpen]
  rw [hmem, Finset.mem_insert, hmem, doorMap_openEdge]
  cases d with
  | east =>
    simp only [canonPair, Prod.mk.injEq]
    constructor
    · rintro ⟨⟨hc, he⟩, (⟨rfl, rfl⟩ | ⟨rfl, rfl⟩ | hold)⟩
      · exact Or.inl ⟨rfl, rfl⟩
      · rcases he with h | h <;> exact absurd h (by decide)
      · exact Or.inr ⟨⟨hc, he⟩, hold⟩
    · rintro (⟨rfl, rfl⟩ | ⟨⟨hc, he⟩, hold⟩)
      · exact ⟨⟨hp, Or.inl rfl⟩, Or.inl ⟨rfl, rfl⟩⟩
      · exact ⟨⟨hc, he⟩, Or.inr (Or.inr hold)⟩
  | south =>
    simp only [canonPair, Prod.mk.injEq]
    constructor
    · rintro ⟨⟨hc, he⟩, (⟨rfl, rfl⟩ | ⟨rfl, rfl⟩ | hold)⟩
      · exact Or.inl ⟨rfl, rfl⟩
      · rcases he with h | h <;> exact absurd h (by decide)
      · exact Or.inr ⟨⟨hc, he⟩, hold⟩
    · rintro (⟨rfl, rfl⟩ | ⟨⟨hc, he⟩, hold⟩)
      · exact ⟨⟨hp, Or.inr rfl⟩, Or.inl ⟨rfl, rfl⟩⟩
      · exact ⟨⟨hc, he⟩, Or.inr (Or.inr hold)⟩
  | north =>
    simp only [canonPair, Prod.mk.injEq]
    constructor
    · rintro ⟨⟨hc, he⟩, (⟨rfl, rfl⟩ | ⟨rfl, rfl⟩ | hold)⟩
      · rcases he with h | h <;> exact absurd h (by decide)
      · exact Or.inl ⟨rfl, rfl⟩
      · exact Or.inr ⟨⟨hc, he⟩, hold⟩
    · rintro (⟨rfl, rfl⟩ | ⟨⟨hc, he⟩, hold⟩)
      · exact ⟨⟨hq, Or.inr rfl⟩, Or.inr (Or.inl ⟨rfl, rfl⟩)⟩
      · exact ⟨⟨hc, he⟩, Or.inr (Or.inr hold)⟩
  | west =>
    simp only [canonPair, Prod.mk.injEq]
    constructor
    · rintro ⟨⟨hc, he⟩, (⟨rfl, rfl⟩ | ⟨rfl, rfl⟩ | hold)⟩
      · rcases he with h | h <;> exact absurd h (by decide)
      · exact Or.inl ⟨rfl, rfl⟩
      · exact Or.inr ⟨⟨hc, he⟩, hold⟩
    · rintro (⟨rfl, rfl⟩ | ⟨⟨hc, he⟩, hold⟩)
      · exact ⟨⟨hq, Or.inl rfl⟩, Or.inr (Or.inl ⟨rfl, rfl⟩)⟩
      · exact ⟨⟨hc, he⟩, Or.inr (Or.inr hold)⟩

theorem canonPair_not_mem (size : Nat) (rooms : Cell → Room) (p : Cell) (d : Dir)
    (hclosed : ¬ rOpen (doorMap rooms) (canonPair p d).1 (canonPair p d).2) :
    canonPair p d ∉ canonEdges size (doorMap rooms) := by
  intro hmem
  simp only [canonEdges, Finset.mem_filter] at hmem
  exact hclosed hmem.2

theorem doorAdj_mono {dm1 dm2 : Cell → Doors}
    (h : ∀ u e, rOpen dm1 u e → rOpen dm2 u e) {u v : Cell}
    (ha : doorAdj dm1 u v) : doorAdj dm2 u v := by
  obtain ⟨d, hd, hstep⟩ := ha
  exact ⟨d, h u d hd, hstep⟩

theorem Reach_mono {dm1 dm2 : Cell → Doors}
    (h : ∀ u e, rOpen dm1 u e → rOpen dm2 u e) {a b : Cell}
    (hr : Reach dm1 a b) : Reach dm2 a b :=
  Relation.ReflTransGen.mono (fun _ _ => doorAdj_mono h) hr

theorem doorAdj_openEdge (rooms : Cell → Room) (p : Cell) (d : Dir) (u v : Cell) :
    doorAdj (doorMap (openEdge rooms p d)) u v ↔
      (u = p ∧ v = step p d) ∨ (u = step p d ∧ v = p) ∨ doorAdj (doorMap rooms) u v := by
  constructor
  · rintro ⟨e, he, hstep⟩
    rcases (doorMap_openEdge rooms p d u e).mp he with ⟨rfl, rfl⟩ | ⟨rfl, rfl⟩ | hold
    · exact Or.inl ⟨rfl, hstep.symm⟩
    · exact Or.inr (Or.inl ⟨rfl, by rw [← hstep, step_opposite]⟩)
    · exact Or.inr (Or.inr ⟨e, hold, hstep⟩)
  · rintro (⟨rfl, rfl⟩ | ⟨rfl, rfl⟩ | ⟨e, he, hstep⟩)
    · exact ⟨d, (doorMap_openEdge _ _ _ _ _).mpr (Or.inl ⟨rfl, rfl⟩), rfl⟩
    · exact ⟨d.opposite,
        (doorMap_openEdge _ _ _ _ _).mpr (Or.inr (Or.inl ⟨rfl, rfl⟩)),
        step_opposite _ d⟩
    · exact ⟨e, (doorMap_openEdge _ _ _ _ _).mpr (Or.inr (Or.inr he)), hstep⟩

theorem Er_openEdge (rooms : Cell → Room) (p : Cell) (d : Dir) (u v : Cell) :
    Er (doorMap (openEdge rooms p d)) u v ↔
      (u = p ∧ v = step p d) ∨ (u = step p d ∧ v = p) ∨ Er (doorMap rooms) u v := by
  unfold Er
  rw [doorAdj_openEdge, doorAdj_openEdge]
  tauto

/-- A rank function witnessing that the open-door graph has grown as a tree:
ranks on the support set are bounded, adjacent cells have distinct ranks and
every cell has at most one lower-ranked neighbour. -/
def RankOk (dm : Cell → Doors) (A : Finset Cell) (r : Cell → ℕ) (N : ℕ) : Prop :=
  (∀ x ∈ A, r x < N) ∧
  (∀ u v, Er dm u v → r u ≠ r v) ∧
  (∀ u v w, Er dm u v → Er dm u w → r v < r u → r w < r u → v = w)

/-- Precondition of a `carve_path(x, y, visited)` call: the entry cell is an
unvisited grid cell, everything visited is a grid cell, all open doors run
between visited cells (allowing the pending edge into the entry cell), and
doors are mirrored. -/
structure CellPre (size : Nat) (s : CarveState) (p : Cell) : Prop where
  p_grid : p ∈ grid size
  p_new : p ∉ s.visited
  vis_sub : s.visited ⊆ grid size
  endpoints : ∀ u d, rOpen (doorMap s.rooms) u d →
    u ∈ insert p s.visited ∧ step u d ∈ insert p s.visited
  symm : ∀ u d, rOpen (doorMap s.rooms) u d →
    rOpen (doorMap s.rooms) (step u d) d.opposite

/-- Precondition of the direction loop: the owning cell is visited and the
state is well-formed. -/
structure DirsPre (size : Nat) (s : CarveState) (p : Cell) : Prop where
  p_vis : p ∈ s.visited
  vis_sub : s.visited ⊆ grid size
  endpoints : ∀ u d, rOpen (doorMap s.rooms) u d →
    u ∈ s.visited ∧ step u d ∈ s.visited
  symm : ∀ u d, rOpen (doorMap s.rooms) u d →
    rOpen (doorMap s.rooms) (step u d) d.opposite

/-- What one `carve_path` call guarantees. -/
structure CellPost (size : Nat) (p : Cell) (s sf : CarveState) : Prop where
  vis_mono : s.visited ⊆ sf.visited
  p_in : p ∈ sf.visited
  vis_sub : sf.visited ⊆ grid size
  door_mono : ∀ u d, rOpen (doorMap s.rooms) u d → rOpen (doorMap sf.rooms) u d
  endpoints : ∀ u d, rOpen (doorMap sf.rooms) u d →
    u ∈ sf.visited ∧ step u d ∈ sf.visited
  symm : ∀ u d, rOpen (doorMap sf.rooms) u d →
    rOpen (doorMap sf.rooms) (step u d) d.opposite
  count : (canonEdges size (doorMap sf.rooms)).card + s.visited.card + 1 =
    (canonEdges size (doorMap s.rooms)).card + sf.visited.card
  reach : ∀ q ∈ sf.visited, q ∈ s.visited ∨ Reach (doorMap sf.rooms) p q
  complete : ∀ q ∈ sf.visited, q ∉ s.visited →
    ∀ d : Dir, step q d ∈ grid size → step q d ∈ sf.visited
  rank : ∀ r N, RankOk (doorMap s.rooms) (insert p s.visited) r N →
    ∃ rr NN, RankOk (doorMap sf.rooms) sf.visited rr NN

/-- What the direction loop guarantees. -/
structure DirsPost (size : Nat) (p : Cell) (ds : List Dir) (s sf : CarveState) : Prop where
  vis_mono : s.visited ⊆ sf.visited
  vis_sub : sf.visited ⊆ grid size
  door_mono : ∀ u d, rOpen (doorMap s.rooms) u d → rOpen (doorMap sf.rooms) u d
  endpoints : ∀ u d, rOpen (doorMap sf.rooms) u d →
    u ∈ sf.visited ∧ step u d ∈ sf.visited
  symm : ∀ u d, rOpen (doorMap sf.rooms) u d →
    rOpen (doorMap sf.rooms) (step u d) d.opposite
  count : (canonEdges size (doorMap sf.rooms)).card + s.visited.card =
    (canonEdges size (doorMap s.rooms)).card + sf.visited.card
  reach : ∀ q ∈ sf.visited, q ∈ s.visited ∨ Reach (doorMap sf.rooms) p q
  complete : ∀ q ∈ sf.visited, q ∉ s.visited →
    ∀ d : Dir, step q d ∈ grid size → step q d ∈ sf.visited
  listComplete : ∀ d ∈ ds, step p d ∈ grid size → step p d ∈ sf.visited
  rank : ∀ r N, RankOk (doorMap s.rooms) s.visited r N →
    ∃ rr NN, RankOk (doorMap sf.rooms) sf.visited rr NN

/-- The direction loop on an empty list changes nothing. -/
theorem dirsPost_nil {size : Nat} {s : CarveState} {p : Cell}
    (pre : DirsPre size s p) : DirsPost size p [] s s where
  vis_mono := Finset.Subset.refl _
  vis_sub := pre.vis_sub
  door_mono := fun _ _ h => h
  endpoints := pre.endpoints
  symm := pre.symm
  count := rfl
  reach := fun q hq => Or.inl hq
  complete := fun q hq hnq => absurd hq hnq
  listComplete := by simp
  rank := fun r N h => ⟨r, N, h⟩

/-- Prepending a direction whose neighbour was already settled. -/
theorem dirsPost_cons_of_skip {size : Nat} {s sf : CarveState} {p : Cell}
    {d : Dir} {ds : List Dir} (post : DirsPost size p ds s sf)
    (hd : step p d ∈ grid size → step p d ∈ s.visited) :
    DirsPost size p (d :: ds) s sf :=
  { post with
    listComplete := by
      intro e he hg
      rcases List.mem_cons.mp he with rfl | he'
      · exact post.vis_mono (hd hg)
      · exact post.listComplete e he' hg }

theorem Er_mem {dm : Cell → Doors} {V : Finset Cell}
    (hend : ∀ u e, rOpen dm u e → u ∈ V ∧ step u e ∈ V) {u v : Cell}
    (h : Er dm u v) : u ∈ V ∧ v ∈ V := by
  rcases h with ⟨e, he, hstep⟩ | ⟨e, he, hstep⟩
  · exact ⟨(hend u e he).1, hstep ▸ (hend u e he).2⟩
  · exact ⟨hstep ▸ (hend v e he).2, (hend v e he).1⟩

/-- The induction statement for one `carve_path` call at a given fuel. -/
def CellStmt (size : Nat) (rand : Nat → List Dir) (fuel : Nat) : Prop :=
  ∀ p s, CellPre size s p → (grid size \ s.visited).card ≤ fuel →
    CellPost size p s (carveCell size rand fuel p s)

/-- The induction statement for the direction loop at a given fuel. -/
def DirsStmt (size : Nat) (rand : Nat → List Dir) (fuel : Nat) : Prop :=
  ∀ p ds s, DirsPre size s p → (grid size \ s.visited).card ≤ fuel →
    DirsPost size p ds s (carveDirs size rand fuel p ds s)

theorem carve_spec (size : Nat) (rand : Nat → List Dir)
    (hrand : ∀ n (d : Dir), d ∈ rand n) :
    ∀ fuel, CellStmt size rand fuel ∧ DirsStmt size rand fuel := by
  intro fuel
  induction fuel with
  | zero =>
    have hcell : CellStmt size rand 0 := by
      intro p s pre hfuel
      exfalso
      have hmem : p ∈ grid size \ s.visited := Finset.mem_sdiff.mpr ⟨pre.p_grid, pre.p_new⟩
      have hpos := Finset.card_pos.mpr ⟨p, hmem⟩
      omega
    refine ⟨hcell, ?_⟩
    intro p ds
    induction ds with
    | nil =>
      intro s pre hfuel
      rw [carveDirs]
      exact dirsPost_nil pre
    | cons d ds ihds =>
      intro s pre hfuel
      rw [carveDirs]
      by_cases hg : inBounds size (step p d) ∧ step p d ∉ s.visited
      · exfalso
        have hmem : step p d ∈ grid size \ s.visited :=
          Finset.mem_sdiff.mpr ⟨mem_grid.mpr hg.1, hg.2⟩
        have hpos := Finset.card_pos.mpr ⟨_, hmem⟩
        omega
      · rw [if_neg hg]
        refine dirsPost_cons_of_skip (ihds s pre hfuel) ?_
        intro hgrid
        by_cases hv : step p d ∈ s.visited
        · exact hv
        · exact absurd ⟨mem_grid.mp hgrid, hv⟩ hg
  | succ n ih =>
    have hcell : CellStmt size rand (n + 1) := by
      intro p s pre hfuel
      rw [carveCell]
      set s1 : CarveState :=
        { rooms := s.rooms, visited := insert p s.visited, ctr := s.ctr + 1 } with hs1
      have pre1 : DirsPre size s1 p :=
        { p_vis := Finset.mem_insert_self p s.visited
          vis_sub := Finset.insert_subset pre.p_grid pre.vis_sub
          endpoints := pre.endpoints
          symm := pre.symm }
      have hfuel1 : (grid size \ s1.visited).card ≤ n := by
        have hmem : p ∈ grid size \ s.visited := Finset.mem_sdiff.mpr ⟨pre.p_grid, pre.p_new⟩
        have hpos := Finset.card_pos.mpr ⟨p, hmem⟩
        have heq : grid size \ insert p s.visited = (grid size \ s.visited).erase p :=
          Finset.sdiff_insert (grid size) s.visited p
        have hcard : (grid size \ s1.visited).card = (grid size \ s.visited).card - 1 := by
          rw [show s1.visited = insert p s.visited from rfl, heq,
            Finset.card_erase_of_mem hmem]
        omega
      have dpost := ih.2 p (rand s.ctr) s1 pre1 hfuel1
      refine
        { vis_mono := (Finset.subset_insert p s.visited).trans dpost.vis_mono
          p_in := dpost.vis_mono (Finset.mem_insert_self p s.visited)
          vis_sub := dpost.vis_sub
          door_mono := dpost.door_mono
          endpoints := dpost.endpoints
          symm := dpost.symm
          count := ?_
          reach := ?_
          complete := ?_
          rank := ?_ }
      · have h2 := dpost.count
        rw [show s1.visited = insert p s.visited from rfl,
          show s1.rooms = s.rooms from rfl,
          Finset.card_insert_of_not_mem pre.p_new] at h2
        omega
      · intro q hq
        rcases dpost.reach q hq with hin | hr
        · rcases Finset.mem_insert.mp hin with rfl | h
          · exact Or.inr Relation.ReflTransGen.refl
          · exact Or.inl h
        · exact Or.inr hr
      · intro q hq hnq e hegrid
        by_cases hq1 : q ∈ s1.visited
        · have : q = p := by
            rcases Finset.mem_insert.mp hq1 with h | h
            · exact h
            · exact absurd h hnq
          subst this
          exact dpost.listComplete e (hrand s.ctr e) hegrid
        · exact dpost.complete q hq hq1 e hegrid
      · intro r N hr
        exact dpost.rank r N hr
    refine ⟨hcell, ?_⟩
    intro p ds
    induction ds with
    | nil =>
      intro s pre hfuel
      rw [carveDirs]
      exact dirsPost_nil pre
    | cons d ds ihds =>
      intro s pre hfuel
      rw [carveDirs]
      by_cases hg : inBounds size (step p d) ∧ step p d ∉ s.visited
      · rw [if_pos hg]
        have hqgrid : step p d ∈ grid size := mem_grid.mpr hg.1
        have hpgrid : p ∈ grid size := pre.vis_sub pre.p_vis
        have hpq : p ≠ step p d := fun h => hg.2 (h ▸ pre.p_vis)
        set s1 : CarveState :=
          { rooms := openEdge s.rooms p d, visited := s.visited, ctr := s.ctr } with hs1
        have hclosed : ¬ rOpen (doorMap s.rooms) (canonPair p d).1 (canonPair p d).2 := by
          intro hopen
          apply hg.2
          cases d with
          | north => exact (pre.endpoints _ _ hopen).1
          | south => exact (pre.endpoints _ _ hopen).2
          | east => exact (pre.endpoints _ _ hopen).2
          | west => exact (pre.endpoints _ _ hopen).1
        have hdoor1 : ∀ u e, rOpen (doorMap s.rooms) u e → rOpen (doorMap s1.rooms) u e :=
          fun u e h => (doorMap_openEdge s.rooms p d u e).mpr (Or.inr (Or.inr h))
        have hopened : rOpen (doorMap s1.rooms) p d :=
          (doorMap_openEdge s.rooms p d p d).mpr (Or.inl ⟨rfl, rfl⟩)
        have preq : CellPre size s1 (step p d) :=
          { p_grid := hqgrid
            p_new := hg.2
            vis_sub := pre.vis_sub
            endpoints := by
              intro u e he
              rcases (doorMap_openEdge s.rooms p d u e).mp he with ⟨rfl, rfl⟩ | ⟨rfl, rfl⟩ | hold
              · exact ⟨Finset.mem_insert_of_mem pre.p_vis, Finset.mem_insert_self _ _⟩
              · refine ⟨Finset.mem_insert_self _ _, ?_⟩
                rw [step_opposite]
                exact Finset.mem_insert_of_mem pre.p_vis
              · have h2 := pre.endpoints u e hold
                exact ⟨Finset.mem_insert_of_mem h2.1, Finset.mem_insert_of_mem h2.2⟩
            symm := by
              intro u e he
              rcases (doorMap_openEdge s.rooms p d u e).mp he with ⟨rfl, rfl⟩ | ⟨rfl, rfl⟩ | hold
              · exact (doorMap_openEdge _ _ _ _ _).mpr (Or.inr (Or.inl ⟨rfl, rfl⟩))
              · rw [step_opposite, Dir.opposite_opposite]
                exact (doorMap_openEdge _ _ _ _ _).mpr (Or.inl ⟨rfl, rfl⟩)
              · exact (doorMap_openEdge _ _ _ _ _).mpr (Or.inr (Or.inr (pre.symm u e hold))) }
        have hfuelq : (grid size \ s1.visited).card ≤ n + 1 := hfuel
        have cpost := hcell (step p d) s1 preq hfuelq
        set s2 := carveCell size rand (n + 1) (step p d) s1 with hs2
        have pre2 : DirsPre size s2 p :=
          { p_vis := cpost.vis_mono pre.p_vis
            vis_sub := cpost.vis_sub
            endpoints := cpost.endpoints
            symm := cpost.symm }
        have hfuel2 : (grid size \ s2.visited).card ≤ n + 1 :=
          le_trans (Finset.card_le_card
            (Finset.sdiff_subset_sdiff (Finset.Subset.refl _) cpost.vis_mono)) hfuel
        have dpost := ihds s2 pre2 hfuel2
        refine
          { vis_mono := le_trans cpost.vis_mono dpost.vis_mono
            vis_sub := dpost.vis_sub
            door_mono := fun u e h => dpost.door_mono u e (cpost.door_mono u e (hdoor1 u e h))
            endpoints := dpost.endpoints
            symm := dpost.symm
            count := ?_
            reach := ?_
            complete := ?_
            listComplete := ?_
            rank := ?_ }
        · have h2 := cpost.count
          have h3 := dpost.count
          have hcanon1 : canonEdges size (doorMap s1.rooms) =
              insert (canonPair p d) (canonEdges size (doorMap s.rooms)) :=
            canonEdges_openEdge size s.rooms p d hpgrid hqgrid hclosed
          have hnotmem := canonPair_not_mem size s.rooms p d hclosed
          rw [show s1.visited = s.visited from rfl, hcanon1,
            Finset.card_insert_of_not_mem hnotmem] at h2
          omega
        · intro x hx
          rcases dpost.reach x hx with hx2 | hreach
          · rcases cpost.reach x hx2 with hx1 | hreach2
            · exact Or.inl hx1
            · refine Or.inr ?_
              have hopen2 := dpost.door_mono p d (cpost.door_mono p d hopened)
              have hadj : doorAdj (doorMap (carveDirs size rand (n + 1) p ds s2).rooms)
                  p (step p d) := ⟨d, hopen2, rfl⟩
              exact (Relation.ReflTransGen.single hadj).trans
                (Reach_mono dpost.door_mono hreach2)
          · exact Or.inr hreach
        · intro x hx hnx e hegrid
          by_cases hx2 : x ∈ s2.visited
          · by_cases hx1 : x ∈ s1.visited
            · exact absurd hx1 hnx
            · exact dpost.vis_mono (cpost.complete x hx2 hx1 e hegrid)
          · exact dpost.complete x hx hx2 e hegrid
        · intro e he hegrid
          rcases List.mem_cons.mp he with rfl | he'
          · exact dpost.vis_mono cpost.p_in
          · exact dpost.listComplete e he' hegrid
        · intro r N hr
          obtain ⟨hbound, hr1, hr2⟩ := hr
          have hvne : ∀ x : Cell, x ∈ s.visited → x ≠ step p d := by
            intro x hx h
            rw [h] at hx
            exact hg.2 hx
          have hrpre : RankOk (doorMap s1.rooms) (insert (step p d) s1.visited)
              (Function.update r (step p d) N) (N + 1) := by
            refine ⟨?_, ?_, ?_⟩
            · intro x hx
              rcases Finset.mem_insert.mp hx with rfl | hx'
              · rw [Function.update_same]
                omega
              · rw [Function.update_noteq (hvne x hx')]
                exact lt_trans (hbound x hx') (Nat.lt_succ_self N)
            · intro u v huv
              rcases (Er_openEdge s.rooms p d u v).mp huv with ⟨rfl, rfl⟩ | ⟨rfl, rfl⟩ | hold
              · rw [Function.update_noteq hpq, Function.update_same]
                exact Nat.ne_of_lt (hbound _ pre.p_vis)
              · rw [Function.update_same, Function.update_noteq hpq]
                exact (Nat.ne_of_lt (hbound _ pre.p_vis)).symm
              · have hm := Er_mem pre.endpoints hold
                rw [Function.update_noteq (hvne u hm.1), Function.update_noteq (hvne v hm.2)]
                exact hr1 u v hold
            · intro u v w huv huw hlt1 hlt2
              rcases (Er_openEdge s.rooms p d u v).mp huv with ⟨rfl, rfl⟩ | ⟨rfl, rfl⟩ | holdv
              · exfalso
                rw [Function.update_same, Function.update_noteq hpq] at hlt1
                exact absurd hlt1 (Nat.not_lt.mpr (le_of_lt (hbound _ pre.p_vis)))
              · rcases (Er_openEdge s.rooms _ d _ w).mp huw with ⟨hqp, rfl⟩ | ⟨_, rfl⟩ | holdw
                · exact absurd hqp (step_ne_self _ d)
                · rfl
                · exact absurd (Er_mem pre.endpoints holdw).1 hg.2
              · have hm := Er_mem pre.endpoints holdv
                rcases (Er_openEdge s.rooms _ d u w).mp huw with ⟨rfl, rfl⟩ | ⟨rfl, _⟩ | holdw
                · exfalso
                  rw [Function.update_same, Function.update_noteq (hvne _ hm.1)] at hlt2
                  exact absurd hlt2 (Nat.not_lt.mpr (le_of_lt (hbound _ hm.1)))
                · exact absurd hm.1 hg.2
                · have hmw := Er_mem pre.endpoints holdw
                  rw [Function.update_noteq (hvne _ hm.2),
                    Function.update_noteq (hvne _ hm.1)] at hlt1
                  rw [Function.update_noteq (hvne _ hmw.2),
                    Function.update_noteq (hvne _ hm.1)] at hlt2
                  exact hr2 u v w holdv holdw hlt1 hlt2
          obtain ⟨rr, NN, hrr⟩ := cpost.rank _ _ hrpre
          exact dpost.rank rr NN hrr
      · rw [if_neg hg]
        refine dirsPost_cons_of_skip (ihds s pre hfuel) ?_
        intro hgrid
        by_cases hv : step p d ∈ s.visited
        · exact hv
        · exact absurd ⟨mem_grid.mp hgrid, hv⟩ hg

/-- A graph admitting a rank function under which every vertex has at most one
lower-ranked neighbour (and no equal-ranked neighbour) has no cycles: the
maximal-rank vertex of a cycle would have two distinct lower-ranked
neighbours. -/
theorem acyclic_of_rank {V : Type} [DecidableEq V] (G : SimpleGraph V) (r : V → ℕ)
    (hr1 : ∀ u v, G.Adj u v → r u ≠ r v)
    (hr2 : ∀ u v w, G.Adj u v → G.Adj u w → r v < r u → r w < r u → v = w) :
    G.IsAcyclic := by
  intro v c hc
  obtain ⟨u, hu, hmax⟩ : ∃ u ∈ c.support.toFinset, ∀ x ∈ c.support.toFinset, r x ≤ r u :=
    Finset.exists_max_image c.support.toFinset r
      ⟨v, List.mem_toFinset.mpr c.start_mem_support⟩
  rw [List.mem_toFinset] at hu
  have hcrot : (c.rotate hu).IsCycle := hc.rotate hu
  have hmax' : ∀ x ∈ (c.rotate hu).support, r x ≤ r u := by
    intro y hy
    rcases (SimpleGraph.Walk.mem_support_iff _).mp hy with rfl | hy'
    · exact le_refl _
    · refine hmax y (List.mem_toFinset.mpr ?_)
      exact List.mem_of_mem_tail
        (((SimpleGraph.Walk.support_rotate c hu).mem_iff).mp hy')
  obtain ⟨b, hub, p, heqc⟩ :
      ∃ (b : V) (h : G.Adj u b) (p : G.Walk b u), c.rotate hu = SimpleGraph.Walk.cons h p := by
    cases heq : c.rotate hu with
    | nil => exact absurd (heq ▸ hcrot) SimpleGraph.Walk.IsCycle.not_of_nil
    | cons h p => exact ⟨_, h, p, rfl⟩
  rw [heqc] at hcrot hmax'
  obtain ⟨x, q, hxu, hconcat⟩ := SimpleGraph.Walk.exists_cons_eq_concat hub p
  have hlen := hcrot.three_le_length
  have hb_mem : b ∈ (SimpleGraph.Walk.cons hub p).support := by
    rw [SimpleGraph.Walk.support_cons]
    exact List.mem_cons_of_mem u p.start_mem_support
  have hx_mem : x ∈ (SimpleGraph.Walk.cons hub p).support := by
    rw [hconcat, SimpleGraph.Walk.support_concat, List.concat_eq_append]
    exact List.mem_append_left _ q.end_mem_support
  have hrb : r b < r u := lt_of_le_of_ne (hmax' b hb_mem) (fun h => hr1 u b hub h.symm)
  have hrx : r x < r u :=
    lt_of_le_of_ne (hmax' x hx_mem) (fun h => hr1 u x hxu.symm h.symm)
  have hbx : b = x := hr2 u b x hub hxu.symm hrb hrx
  have hnodup := hcrot.edges_nodup
  have hedges1 : (SimpleGraph.Walk.cons hub p).edges = s(u, b) :: p.edges :=
    SimpleGraph.Walk.edges_cons hub p
  have hedges2 : (SimpleGraph.Walk.cons hub p).edges = q.edges ++ [s(x, u)] := by
    rw [hconcat, SimpleGraph.Walk.edges_concat, List.concat_eq_append]
  have hplen : p.edges.length + 1 = (SimpleGraph.Walk.cons hub p).length := by
    rw [SimpleGraph.Walk.length_edges, SimpleGraph.Walk.length_cons]
  have hqne : q.edges ≠ [] := by
    intro hnil
    have h1 := congrArg List.length (hedges1.symm.trans hedges2)
    rw [hnil] at h1
    simp only [List.length_cons, List.length_append, List.length_nil] at h1
    omega
  obtain ⟨e0, qrest, hq⟩ := List.exists_cons_of_ne_nil hqne
  have heq2 : s(u, b) :: p.edges = e0 :: (qrest ++ [s(x, u)]) := by
    rw [← hedges1, hedges2, hq]
    simp
  have hmem : s(u, b) ∈ p.edges := by
    have h2 : p.edges = qrest ++ [s(x, u)] := (List.cons.injEq _ _ _ _ ▸ heq2).2
    rw [h2, hbx]
    exact List.mem_append_right _ (by rw [Sym2.eq_swap]; exact List.mem_singleton.mpr rfl)
  rw [hedges1] at hnodup
  exact (List.nodup_cons.mp hnodup).1 hmem

/-- Every grid cell lies in any set that contains the origin and is closed
under in-grid steps. -/
theorem grid_closure (size : Nat) (S : Finset Cell)
    (h0 : ((0 : Int), (0 : Int)) ∈ S)
    (hcl : ∀ p ∈ S, ∀ d : Dir, step p d ∈ grid size → step p d ∈ S) :
    ∀ p ∈ grid size, p ∈ S := by
  suffices h : ∀ n : Nat, ∀ x y : Int, (x, y) ∈ grid size → (x + y).toNat = n → (x, y) ∈ S by
    intro p hp
    obtain ⟨x, y⟩ := p
    exact h _ x y hp rfl
  intro n
  induction n using Nat.strong_induction_on with
  | _ n ihn =>
    intro x y hp hn
    have hb : 0 ≤ x ∧ x < (size : Int) ∧ 0 ≤ y ∧ y < (size : Int) := by
      simpa [inBounds] using mem_grid.mp hp
    by_cases hx : x = 0
    · by_cases hy : y = 0
      · subst hx hy
        exact h0
      · have hy' : 0 < y := by omega
        have hmem : (x, y - 1) ∈ grid size := by
          rw [mem_grid]
          simp only [inBounds]
          omega
        have hstep : step (x, y - 1) Dir.south = (x, y) := by
          simp [step, Dir.delta, Prod.ext_iff]
        have hprev : (x, y - 1) ∈ S := ihn ((x + (y - 1)).toNat) (by omega) x (y - 1) hmem (by omega)
        have hres := hcl _ hprev Dir.south (by rw [hstep]; exact hp)
        rwa [hstep] at hres
    · have hx' : 0 < x := by omega
      have hmem : (x - 1, y) ∈ grid size := by
        rw [mem_grid]
        simp only [inBounds]
        omega
      have hstep : step (x - 1, y) Dir.east = (x, y) := by
        simp [step, Dir.delta, Prod.ext_iff]
      have hprev : (x - 1, y) ∈ S := ihn (((x - 1) + y).toNat) (by omega) (x - 1) y hmem (by omega)
      have hres := hcl _ hprev Dir.east (by rw [hstep]; exact hp)
      rwa [hstep] at hres

theorem rOpen_default (u : Cell) (e : Dir) :
    ¬ rOpen (doorMap fun _ => Room.default) u e := by
  cases e <;> simp [rOpen, doorMap, Room.default, Doors.closed, Doors.get]

theorem canonEdges_default (size : Nat) :
    canonEdges size (doorMap fun _ => Room.default) = ∅ := by
  rw [Finset.eq_empty_iff_forall_not_mem]
  intro cd hm
  simp only [canonEdges, Finset.mem_filter] at hm
  exact rOpen_default cd.1 cd.2 hm.2

/-- Everything the carved maze guarantees about the final door layout. -/
structure MazeFacts (size : Nat) (dm : Cell → Doors) : Prop where
  reach : ∀ p ∈ grid size, Reach dm (0, 0) p
  count : (canonEdges size dm).card + 1 = size * size
  endpoints : ∀ u e, rOpen dm u e → u ∈ grid size ∧ step u e ∈ grid size
  symm : ∀ u e, rOpen dm u e → rOpen dm (step u e) e.opposite
  rank : ∃ r N, RankOk dm (grid size) r N

theorem generate_maze_spec (size : Nat) (rand : Nat → List Dir)
    (hsize : 5 ≤ size) (hrand : ∀ n (d : Dir), d ∈ rand n) :
    MazeFacts size (doorMap (generate_maze size rand fun _ => Room.default).rooms) := by
  have h00 : ((0 : Int), (0 : Int)) ∈ grid size := by
    rw [mem_grid]
    simp only [inBounds]
    omega
  have pre : CellPre size { rooms := fun _ => Room.default, visited := ∅, ctr := 0 } (0, 0) :=
    { p_grid := h00
      p_new := Finset.not_mem_empty _
      vis_sub := Finset.empty_subset _
      endpoints := fun u e h => absurd h (rOpen_default u e)
      symm := fun u e h => absurd h (rOpen_default u e) }
  have hfuel : (grid size \ (∅ : Finset Cell)).card ≤ size * size := by
    rw [Finset.sdiff_empty, grid_card]
  have post0 := (carve_spec size rand hrand (size * size)).1 (0, 0)
    { rooms := fun _ => Room.default, visited := ∅, ctr := 0 } pre hfuel
  have post : CellPost size (0, 0) { rooms := fun _ => Room.default, visited := ∅, ctr := 0 }
      (generate_maze size rand fun _ => Room.default) := post0
  have hvis : (generate_maze size rand fun _ => Room.default).visited = grid size := by
    apply Finset.Subset.antisymm post.vis_sub
    intro p hp
    refine grid_closure size _ post.p_in ?_ p hp
    intro q hq d hd
    exact post.complete q hq (Finset.not_mem_empty q) d hd
  refine
    { reach := ?_
      count := ?_
      endpoints := fun u e h =>
        ⟨post.vis_sub (post.endpoints u e h).1, post.vis_sub (post.endpoints u e h).2⟩
      symm := post.symm
      rank := ?_ }
  · intro p hp
    have hpin : p ∈ (generate_maze size rand fun _ => Room.default).visited := hvis ▸ hp
    rcases post.reach p hpin with habs | hr
    · exact absurd habs (Finset.not_mem_empty p)
    · exact hr
  · have hc := post.count
    rw [canonEdges_default, Finset.card_empty, hvis, grid_card] at hc
    simpa using hc
  · have hrk := post.rank (fun _ => 0) 1 ?_
    · obtain ⟨rr, NN, hrr⟩ := hrk
      exact ⟨rr, NN, hvis ▸ hrr⟩
    · refine ⟨fun x _ => Nat.zero_lt_one, ?_, ?_⟩
      · intro u v huv
        rcases huv with ⟨e, he, _⟩ | ⟨e, he, _⟩ <;> exact absurd he (rOpen_default _ e)
      · intro u v w huv _ _ _
        rcases huv with ⟨e, he, _⟩ | ⟨e, he, _⟩ <;> exact absurd he (rOpen_default _ e)

/-! ### The later generation phases and game operations never touch a door -/

theorem doorMap_setRoom (rooms : Cell → Room) (c : Cell) (rm : Room)
    (h : rm.doors = (rooms c).doors) :
    doorMap (setRoom rooms c rm) = doorMap rooms := by
  funext q
  by_cases hq : q = c
  · subst hq
    simp [doorMap, setRoom, Function.update_same, h]
  · simp [doorMap, setRoom, Function.update_noteq hq]

theorem doorMap_populate (size : Nat) (spawn : Cell → Option Enemy) (rooms : Cell → Room) :
    doorMap (populate_rooms size spawn rooms) = doorMap rooms := by
  funext p
  simp only [populate_rooms, doorMap]
  split
  · cases spawn p <;> rfl
  · rfl

theorem doorMap_treasureLoop (tpick : Nat → Nat) :
    ∀ (n i : Nat) (cands : List Cell) (rooms : Cell → Room),
      doorMap (treasureLoop tpick n i cands rooms) = doorMap rooms := by
  intro n
  induction n with
  | zero => intro i cands rooms; rfl
  | succ m ih =>
    intro i cands rooms
    rw [treasureLoop]
    split
    · rfl
    · rw [ih, doorMap_setRoom]
      rfl

theorem doorMap_place_treasure (size num : Nat) (tpick : Nat → Nat) (rooms : Cell → Room) :
    doorMap (place_treasure_rooms size num tpick rooms) = doorMap rooms :=
  doorMap_treasureLoop tpick num 0 _ rooms

theorem doorMap_place_merchant (size : Nat) (mpick : Nat) (rooms : Cell → Room) :
    doorMap (place_merchant size mpick rooms) = doorMap rooms := by
  unfold place_merchant
  dsimp only
  split
  · rfl
  · rw [doorMap_setRoom]
    rfl

theorem doorMap_place_end_room (size : Nat) (rooms : Cell → Room) (pos : Cell) :
    doorMap (place_end_room size rooms pos) = doorMap rooms := by
  unfold place_end_room
  dsimp only
  split
  · rfl
  · rw [doorMap_setRoom]
    rfl

theorem doorMap_update_visibility (dg : Dungeon) :
    doorMap (Dungeon.update_visibility dg).rooms = doorMap dg.rooms := by
  funext q
  simp only [Dungeon.update_visibility, doorMap]
  split <;> rfl

theorem doorMap_move_player (dg : Dungeon) (direction : String) :
    doorMap (dg.move_player direction).2.rooms = doorMap dg.rooms := by
  unfold Dungeon.move_player
  split
  · rfl
  · split
    · rfl
    · dsimp only
      split
      · exact doorMap_update_visibility _
      · rfl

theorem doorMap_applyOp (dg : Dungeon) (op : DungeonOp) :
    doorMap (applyOp dg op).rooms = doorMap dg.rooms := by
  cases op with
  | move direction => exact doorMap_move_player dg direction
  | lootTreasure => rw [applyOp, updateRoomAt]; exact doorMap_setRoom _ _ _ rfl
  | clearRoom => rw [applyOp, updateRoomAt]; exact doorMap_setRoom _ _ _ rfl
  | visitMerchant => rw [applyOp, updateRoomAt]; exact doorMap_setRoom _ _ _ rfl

theorem doorMap_applyOps (dg : Dungeon) (ops : List DungeonOp) :
    doorMap (applyOps dg ops).rooms = doorMap dg.rooms := by
  induction ops generalizing dg with
  | nil => rfl
  | cons op ops ih => rw [applyOps, ih, doorMap_applyOp]

theorem doorMap_generate_dungeon (tier size : Nat) (g : GenOracle) :
    doorMap (generate_dungeon tier size g).rooms =
      doorMap (generate_maze size g.shuffles fun _ => Room.default).rooms := by
  unfold generate_dungeon
  dsimp only
  rw [doorMap_update_visibility]
  dsimp only
  have hseed : ∀ rs : Cell → Room,
      doorMap (setRoom rs (0, 0) { rs (0, 0) with is_visible := true }) = doorMap rs :=
    fun rs => doorMap_setRoom rs (0, 0) _ rfl
  rw [hseed, doorMap_place_end_room, doorMap_place_merchant,
    doorMap_place_treasure, doorMap_populate]

/-- Mirrored doors as a two-sided equality. -/
def DoorSym (dm : Cell → Doors) : Prop :=
  ∀ (p : Cell) (d : Dir), (dm p).get d = (dm (step p d)).get d.opposite

theorem doorSym_of_mirror {dm : Cell → Doors}
    (h : ∀ u e, rOpen dm u e → rOpen dm (step u e) e.opposite) : DoorSym dm := by
  intro p d
  by_cases h1 : (dm p).get d = true
  · rw [h1]
    exact (h p d h1).symm
  · by_cases h2 : (dm (step p d)).get d.opposite = true
    · have h3 := h _ _ h2
      rw [step_opposite, Dir.opposite_opposite] at h3
      exact absurd h3 h1
    · rw [Bool.not_eq_true] at h1 h2
      rw [h1, h2]

theorem reach_reachable (size : Nat) (dm : Cell → Doors)
    (hend : ∀ u e, rOpen dm u e → u ∈ grid size ∧ step u e ∈ grid size)
    {a b : Cell} (ha : a ∈ grid size) (hr : Reach dm a b) :
    ∀ hb : b ∈ grid size, (mazeGraph size dm).Reachable ⟨a, ha⟩ ⟨b, hb⟩ := by
  induction hr with
  | refl => intro hb; rfl
  | tail hab hbc ih =>
    intro hc
    obtain ⟨e, he, hstepe⟩ := hbc
    have hb := (hend _ e he).1
    have hadj : (mazeGraph size dm).Adj ⟨_, hb⟩ ⟨_, hc⟩ := Or.inl ⟨e, he, hstepe⟩
    exact (ih hb).trans hadj.reachable

/-- C1: for every dungeon generated by `Dungeon(tier, size)` with `tier ≥ 1`
and `size ≥ 5` (for every outcome of the shuffles, which always produce
permutations of the four directions), every room of the grid is reachable from
`(0, 0)` through open doors, the open-door graph has exactly `size² - 1` edges
(each mirrored door pair counted once, at its west/north endpoint), and it is
a tree — connected and acyclic. -/
theorem C1_generated_dungeon_spanning_tree (tier size : Nat) (g : GenOracle)
    (htier : 1 ≤ tier) (hsize : 5 ≤ size)
    (hrand : ∀ n (d : Dir), d ∈ g.shuffles n) :
    (∀ p ∈ grid size, Reach (doorMap (generate_dungeon tier size g).rooms) (0, 0) p) ∧
    (canonEdges size (doorMap (generate_dungeon tier size g).rooms)).card = size * size - 1 ∧
    (mazeGraph size (doorMap (generate_dungeon tier size g).rooms)).IsTree := by
  have hdm := doorMap_generate_dungeon tier size g
  have facts := generate_maze_spec size g.shuffles hsize hrand
  rw [← hdm] at facts
  have h00 : ((0 : Int), (0 : Int)) ∈ grid size := by
    rw [mem_grid]
    simp only [inBounds]
    omega
  refine ⟨facts.reach, ?_, ?_, ?_⟩
  · have := facts.count
    omega
  · rw [SimpleGraph.connected_iff]
    refine ⟨?_, ⟨⟨(0, 0), h00⟩⟩⟩
    intro a b
    have hra := reach_reachable size _ facts.endpoints h00 (facts.reach a.1 a.2) a.2
    have hrb := reach_reachable size _ facts.endpoints h00 (facts.reach b.1 b.2) b.2
    exact hra.symm.trans hrb
  · obtain ⟨r, N, hrk⟩ := facts.rank
    refine acyclic_of_rank _ (fun v => r v.1) ?_ ?_
    · intro u v hadj
      exact hrk.2.1 u.1 v.1 hadj
    · intro u v w h1 h2 hl1 hl2
      exact Subtype.ext (hrk.2.2 u.1 v.1 w.1 h1 h2 hl1 hl2)

/-- A concrete generation oracle: the shuffle always returns the directions in
the source's declaration order. -/
def g0 : GenOracle :=
  { shuffles := fun _ => [Dir.south, Dir.north, Dir.east, Dir.west]
    spawn := fun _ => none
    numTreasures := 1
    tpick := fun _ => 0
    mpick := 0 }

theorem C1_generated_dungeon_spanning_tree_witness :
    (∀ p ∈ grid 5, Reach (doorMap (generate_dungeon 1 5 g0).rooms) (0, 0) p) ∧
    (canonEdges 5 (doorMap (generate_dungeon 1 5 g0).rooms)).card = 5 * 5 - 1 ∧
    (mazeGraph 5 (doorMap (generate_dungeon 1 5 g0).rooms)).IsTree := by
  exact C1_generated_dungeon_spanning_tree 1 5 g0 (by decide) (by decide)
    (fun _ d => by cases d <;> simp only [g0] <;> decide)

/-- C2: door symmetry holds on every generated dungeon — carving always opens
mirrored pairs — and every state reachable from it stays symmetric, because no
game operation (movement, looting, combat clearing, merchant visits) ever
changes a door. -/
theorem C2_door_symmetry_invariant (tier size : Nat) (g : GenOracle)
    (htier : 1 ≤ tier) (hsize : 5 ≤ size)
    (hrand : ∀ n (d : Dir), d ∈ g.shuffles n) :
    DoorSym (doorMap (generate_dungeon tier size g).rooms) ∧
    (∀ (dg : Dungeon) (ops : List DungeonOp),
      doorMap (applyOps dg ops).rooms = doorMap dg.rooms) ∧
    (∀ ops : List DungeonOp,
      DoorSym (doorMap (applyOps (generate_dungeon tier size g) ops).rooms)) := by
  have hdm := doorMap_generate_dungeon tier size g
  have facts := generate_maze_spec size g.shuffles hsize hrand
  rw [← hdm] at facts
  have hsym : DoorSym (doorMap (generate_dungeon tier size g).rooms) :=
    doorSym_of_mirror facts.symm
  refine ⟨hsym, fun dg ops => doorMap_applyOps dg ops, ?_⟩
  intro ops
  rw [doorMap_applyOps]
  exact hsym

theorem C2_door_symmetry_invariant_witness :
    DoorSym (doorMap (generate_dungeon 1 5 g0).rooms) ∧
    (∀ (dg : Dungeon) (ops : List DungeonOp),
      doorMap (applyOps dg ops).rooms = doorMap dg.rooms) ∧
    (∀ ops : List DungeonOp,
      DoorSym (doorMap (applyOps (generate_dungeon 1 5 g0) ops).rooms)) := by
  exact C2_door_symmetry_invariant 1 5 g0 (by decide) (by decide)
    (fun _ d => by cases d <;> simp only [g0] <;> decide)

/-- C4: hit resolution — a natural 20 always hits and crits, a natural 1
always misses, and any other roll hits exactly when
`roll + total attack (+2 for players) ≥ 10 + total defense`, never critting. -/
theorem C4_calculate_hit_rules (roll attackTotal defenseTotal : Int) (is_player : Bool) :
    (roll = 20 → calculate_hit roll attackTotal is_player defenseTotal = (true, roll, true)) ∧
    (roll = 1 → calculate_hit roll attackTotal is_player defenseTotal = (false, roll, false)) ∧
    (roll ≠ 20 → roll ≠ 1 →
      (((calculate_hit roll attackTotal is_player defenseTotal).1 = true) ↔
        10 + defenseTotal ≤ roll + attackTotal + (if is_player then 2 else 0)) ∧
      (calculate_hit roll attackTotal is_player defenseTotal).2.2 = false) := by
  refine ⟨?_, ?_, ?_⟩
  · intro h
    subst h
    simp [calculate_hit]
  · intro h
    subst h
    simp [calculate_hit]
  · intro h20 h1
    constructor
    · simp only [calculate_hit, if_neg h20, if_neg h1, decide_eq_true_eq]
      omega
    · simp [calculate_hit, h20, h1]

theorem C4_calculate_hit_rules_witness :
    calculate_hit 20 3 true 1 = (true, 20, true) ∧
    calculate_hit 1 3 false 2 = (false, 1, false) ∧
    (((calculate_hit 12 5 true 8).1 = true) ↔
      (10 : Int) + 8 ≤ 12 + 5 + (if true then 2 else 0)) :=
  ⟨(C4_calculate_hit_rules 20 3 1 true).1 rfl,
    (C4_calculate_hit_rules 1 3 2 false).2.1 rfl,
    ((C4_calculate_hit_rules 12 5 8 true).2.2 (by decide) (by decide)).1⟩

/-- A player with base attack 5 and no equipment, as in the specification's
§8 damage scenario. -/
def plainFighter : Character :=
  { name := "hero", age := 20, tier := 1, xp := 0, current_health := 20,
    inventory := [], equipped_weapon := none, equipped_armor := none,
    equipped_shield := none, money := 0, is_player := true, title := "Novice",
    base_attack := 5, base_defense := 0, max_health := 20,
    special_ability := "none" }

/-- C5: the damage computation equals the specification's pipeline for every
attack/defense/draw/crit/player combination, the result is always at least 1,
and the §8 scenario — player, total attack 5, no weapon, defender total
defense 4, non-critical hit — deals exactly 3 damage. -/
theorem C5_damage_pipeline (attackTotal : Int) (weapon : Option Item) (draw : ℚ)
    (defenseTotal : Int) (is_crit is_player : Bool) :
    calculate_damage attackTotal weapon draw defenseTotal is_crit is_player =
      specDamage attackTotal weapon draw defenseTotal is_crit is_player ∧
    1 ≤ calculate_damage attackTotal weapon draw defenseTotal is_crit is_player ∧
    calculate_damage plainFighter.calculate_total_attack plainFighter.equipped_weapon
      0 4 false plainFighter.is_player = 3 := by
  refine ⟨?_, ?_, ?_⟩
  · cases weapon <;>
      simp [calculate_damage, specDamage, CRITICAL_HIT_MULTIPLIER]
  · exact le_max_left 1 _
  · have h1 : plainFighter.calculate_total_attack = 5 := by
      norm_num [Character.calculate_total_attack, plainFighter, pyInt]
    rw [h1]
    norm_num [calculate_damage, plainFighter, pyInt, CRITICAL_HIT_MULTIPLIER]

/-- A tiny dungeon with all doors closed. -/
def sampleDungeon : Dungeon :=
  { tier := 1, size := 5, player_pos := (0, 0), rooms := fun _ => Room.default }

/-- C10: an unrecognized direction string makes `move_player` return `False`
with the dungeon unchanged (the door lookup `doors.get(direction, False)`
defaults to a closed door). -/
theorem C10_unknown_direction (dg : Dungeon) (direction : String)
    (h : direction ∉ ["north", "south", "east", "west"]) :
    dg.move_player direction = (false, dg) := by
  have h1 : direction ≠ "north" := fun he => h (by rw [he]; simp)
  have h2 : direction ≠ "south" := fun he => h (by rw [he]; simp)
  have h3 : direction ≠ "east" := fun he => h (by rw [he]; simp)
  have h4 : direction ≠ "west" := fun he => h (by rw [he]; simp)
  simp [Dungeon.move_player, Doors.getStr, h1, h2, h3, h4]

theorem C10_unknown_direction_witness :
    sampleDungeon.move_player "up" = (false, sampleDungeon) :=
  C10_unknown_direction sampleDungeon "up" (by decide)

/-- A whole sequence of movement commands. -/
def moveSeq (dg : Dungeon) : List String → Dungeon
  | [] => dg
  | d :: ds => moveSeq (dg.move_player d).2 ds

theorem move_player_eq (dg : Dungeon) (direction : String) (dxy : Int × Int)
    (hmap : direction_map direction = some dxy) :
    dg.move_player direction =
      if dg.get_current_room.doors.getStr direction = true then
        if inBounds dg.size (dg.player_pos.1 + dxy.1, dg.player_pos.2 + dxy.2) then
          (true, Dungeon.update_visibility
            { dg with player_pos := (dg.player_pos.1 + dxy.1, dg.player_pos.2 + dxy.2) })
        else (false, dg)
      else (false, dg) := by
  obtain ⟨dx, dy⟩ := dxy
  unfold Dungeon.move_player
  by_cases hdoor : dg.get_current_room.doors.getStr direction = true
  · rw [if_neg (by rw [hdoor]; simp), hmap, if_pos hdoor]
  · rw [if_pos (by simp [Bool.not_eq_true] at hdoor ⊢; exact hdoor), if_neg hdoor]

theorem move_player_size (dg : Dungeon) (direction : String) :
    (dg.move_player direction).2.size = dg.size := by
  unfold Dungeon.move_player
  split
  · rfl
  · split
    · rfl
    · dsimp only
      split <;> rfl

theorem move_player_inBounds (dg : Dungeon) (direction : String)
    (h : inBounds dg.size dg.player_pos) :
    inBounds (dg.move_player direction).2.size (dg.move_player direction).2.player_pos := by
  unfold Dungeon.move_player
  split
  · exact h
  · split
    · exact h
    · dsimp only
      split
      · next hb => exact hb
      · exact h

theorem moveSeq_inBounds (dirs : List String) (dg : Dungeon)
    (h : inBounds dg.size dg.player_pos) :
    inBounds (moveSeq dg dirs).size (moveSeq dg dirs).player_pos := by
  induction dirs generalizing dg with
  | nil => exact h
  | cons d ds ih =>
    rw [moveSeq]
    exact ih _ (move_player_inBounds dg d h)

/-- C3: for each of the four direction keys, `move_player` succeeds — moving
the player to the adjacent cell and re-running the visibility update — exactly
when the current room's door for that direction is open and the destination is
in bounds; otherwise it returns `False` and the whole dungeon state is
unchanged.  Consequently the player position never leaves the grid under any
sequence of movement commands. -/
theorem C3_move_player_correct (dg : Dungeon) (direction : String)
    (h : direction ∈ ["north", "south", "east", "west"]) :
    (∃ dxy : Int × Int, direction_map direction = some dxy ∧
      ((((dg.move_player direction).1 = true) ↔
        (dg.get_current_room.doors.getStr direction = true ∧
          inBounds dg.size (dg.player_pos.1 + dxy.1, dg.player_pos.2 + dxy.2))) ∧
      ((dg.move_player direction).1 = true →
        (dg.move_player direction).2 =
          Dungeon.update_visibility
            { dg with player_pos := (dg.player_pos.1 + dxy.1, dg.player_pos.2 + dxy.2) } ∧
        (dg.move_player direction).2.player_pos =
          (dg.player_pos.1 + dxy.1, dg.player_pos.2 + dxy.2)) ∧
      ((dg.move_player direction).1 = false → (dg.move_player direction).2 = dg))) ∧
    (∀ dirs : List String, inBounds dg.size dg.player_pos →
      inBounds (moveSeq dg dirs).size (moveSeq dg dirs).player_pos) := by
  have hmain : ∀ dxy : Int × Int, direction_map direction = some dxy →
      ((((dg.move_player direction).1 = true) ↔
        (dg.get_current_room.doors.getStr direction = true ∧
          inBounds dg.size (dg.player_pos.1 + dxy.1, dg.player_pos.2 + dxy.2))) ∧
      ((dg.move_player direction).1 = true →
        (dg.move_player direction).2 =
          Dungeon.update_visibility
            { dg with player_pos := (dg.player_pos.1 + dxy.1, dg.player_pos.2 + dxy.2) } ∧
        (dg.move_player direction).2.player_pos =
          (dg.player_pos.1 + dxy.1, dg.player_pos.2 + dxy.2)) ∧
      ((dg.move_player direction).1 = false → (dg.move_player direction).2 = dg)) := by
    intro dxy hmap
    rw [move_player_eq dg direction dxy hmap]
    by_cases hdoor : dg.get_current_room.doors.getStr direction = true
    · by_cases hb : inBounds dg.size (dg.player_pos.1 + dxy.1, dg.player_pos.2 + dxy.2)
      · rw [if_pos hdoor, if_pos hb]
        refine ⟨by simp [hdoor, hb], fun _ => ⟨rfl, rfl⟩, by simp⟩
      · rw [if_pos hdoor, if_neg hb]
        exact ⟨by simp [hb], by simp, fun _ => rfl⟩
    · rw [if_neg hdoor]
      exact ⟨by simp [hdoor], by simp, fun _ => rfl⟩
  refine ⟨?_, fun dirs hin => moveSeq_inBounds dirs dg hin⟩
  simp only [List.mem_cons, List.not_mem_nil, or_false] at h
  rcases h with rfl | rfl | rfl | rfl
  · exact ⟨(0, -1), rfl, hmain (0, -1) rfl⟩
  · exact ⟨(0, 1), rfl, hmain (0, 1) rfl⟩
  · exact ⟨(1, 0), rfl, hmain (1, 0) rfl⟩
  · exact ⟨(-1, 0), rfl, hmain (-1, 0) rfl⟩

theorem C3_move_player_correct_witness :
    (∃ dxy : Int × Int, direction_map "east" = some dxy ∧
      ((((sampleDungeon.move_player "east").1 = true) ↔
        (sampleDungeon.get_current_room.doors.getStr "east" = true ∧
          inBounds sampleDungeon.size
            (sampleDungeon.player_pos.1 + dxy.1, sampleDungeon.player_pos.2 + dxy.2))) ∧
      ((sampleDungeon.move_player "east").1 = true →
        (sampleDungeon.move_player "east").2 =
          Dungeon.update_visibility
            { sampleDungeon with player_pos :=
                (sampleDungeon.player_pos.1 + dxy.1, sampleDungeon.player_pos.2 + dxy.2) } ∧
        (sampleDungeon.move_player "east").2.player_pos =
          (sampleDungeon.player_pos.1 + dxy.1, sampleDungeon.player_pos.2 + dxy.2)) ∧
      (((sampleDungeon.move_player "east").1 = false) →
        (sampleDungeon.move_player "east").2 = sampleDungeon))) ∧
    (∀ dirs : List String, inBounds sampleDungeon.size sampleDungeon.player_pos →
      inBounds (moveSeq sampleDungeon dirs).size (moveSeq sampleDungeon dirs).player_pos) := by
  exact C3_move_player_correct sampleDungeon "east" (by decide)

/-- One call in a sequence of health operations. -/
inductive HealthOp where
  | damage (amount : Int)
  | heal (amount : Int)

/-- Run a sequence of `take_damage`/`heal` calls, keeping the mutated
character. -/
def applyHealthOps (c : Character) : List HealthOp → Character
  | [] => c
  | .damage a :: ops => applyHealthOps (c.take_damage a).2 ops
  | .heal a :: ops => applyHealthOps (c.heal a).2 ops

theorem applyHealthOps_bounds (ops : List HealthOp) (c : Character)
    (h1 : 0 ≤ c.current_health) (h2 : c.current_health ≤ c.max_health) :
    0 ≤ (applyHealthOps c ops).current_health ∧
      (applyHealthOps c ops).current_health ≤ (applyHealthOps c ops).max_health := by
  induction ops generalizing c with
  | nil => exact ⟨h1, h2⟩
  | cons op ops ih =>
    cases op with
    | damage a =>
      rw [applyHealthOps]
      unfold Character.take_damage
      split
      · exact ih c h1 h2
      · refine ih _ ?_ ?_ <;> simp <;> omega
    | heal a =>
      rw [applyHealthOps]
      unfold Character.heal
      split
      · exact ih c h1 h2
      · refine ih _ ?_ ?_ <;> simp <;> omega

/-- C6: `take_damage` clamps at 0 and reports survival, `heal` clamps at
`max_health` and returns the amount actually healed (at most the request);
negative arguments to either are rejected with the state unchanged, and along
every sequence of such calls `current_health` stays within
`[0, max_health]`. -/
theorem C6_health_clamping (c : Character) (h1 : 0 ≤ c.current_health)
    (h2 : c.current_health ≤ c.max_health) :
    (∀ d : Int, d < 0 → c.take_damage d = (true, c)) ∧
    (∀ a : Int, a < 0 → c.heal a = (0, c)) ∧
    (∀ d : Int, 0 ≤ d →
      (c.take_damage d).2.current_health = max 0 (c.current_health - d) ∧
      (c.take_damage d).2.max_health = c.max_health ∧
      ((c.take_damage d).1 = true ↔ 0 < (c.take_damage d).2.current_health)) ∧
    (∀ a : Int, 0 ≤ a →
      (c.heal a).2.current_health = min c.max_health (c.current_health + a) ∧
      (c.heal a).2.max_health = c.max_health ∧
      (c.heal a).1 = (c.heal a).2.current_health - c.current_health ∧
      (c.heal a).1 ≤ a) ∧
    (∀ ops : List HealthOp,
      0 ≤ (applyHealthOps c ops).current_health ∧
      (applyHealthOps c ops).current_health ≤ (applyHealthOps c ops).max_health) := by
  refine ⟨?_, ?_, ?_, ?_, fun ops => applyHealthOps_bounds ops c h1 h2⟩
  · intro d hd
    simp [Character.take_damage, hd]
  · intro a ha
    simp [Character.heal, ha]
  · intro d hd
    have hnn : ¬ d < 0 := by omega
    refine ⟨by simp [Character.take_damage, hnn], by simp [Character.take_damage, hnn], ?_⟩
    simp [Character.take_damage, hnn]
  · intro a ha
    have hnn : ¬ a < 0 := by omega
    refine ⟨by simp [Character.heal, hnn], by simp [Character.heal, hnn],
      by simp [Character.heal, hnn], ?_⟩
    simp only [Character.heal, if_neg hnn]
    omega

theorem C6_health_clamping_witness :
    (∀ d : Int, d < 0 → plainFighter.take_damage d = (true, plainFighter)) ∧
    (∀ a : Int, a < 0 → plainFighter.heal a = (0, plainFighter)) ∧
    (∀ d : Int, 0 ≤ d →
      (plainFighter.take_damage d).2.current_health =
        max 0 (plainFighter.current_health - d) ∧
      (plainFighter.take_damage d).2.max_health = plainFighter.max_health ∧
      ((plainFighter.take_damage d).1 = true ↔
        0 < (plainFighter.take_damage d).2.current_health)) ∧
    (∀ a : Int, 0 ≤ a →
      (plainFighter.heal a).2.current_health =
        min plainFighter.max_health (plainFighter.current_health + a) ∧
      (plainFighter.heal a).2.max_health = plainFighter.max_health ∧
      (plainFighter.heal a).1 =
        (plainFighter.heal a).2.current_health - plainFighter.current_health ∧
      (plainFighter.heal a).1 ≤ a) ∧
    (∀ ops : List HealthOp,
      0 ≤ (applyHealthOps plainFighter ops).current_health ∧
      (applyHealthOps plainFighter ops).current_health ≤
        (applyHealthOps plainFighter ops).max_health) := by
  exact C6_health_clamping plainFighter (by decide) (by decide)

/-- C7: a non-negative XP grant adds exactly that amount, and the level check
looks only at the immediate next tier: the tier advances by exactly one when
that tier exists and its threshold is met (even if further thresholds are also
met), reloading its base stats and rescaling health by the previous health
fraction, truncated (rounded down for non-negative values); a negative grant
changes nothing. -/
theorem C7_add_xp_single_tier (db : Db) (c : Character) (amount : Int)
    (hmax : 0 < c.max_health) :
    (amount < 0 → Character.add_xp db c amount = c) ∧
    (0 ≤ amount →
      (Character.add_xp db c amount).xp = c.xp + amount ∧
      ((Character.add_xp db c amount).tier = c.tier ∨
        (Character.add_xp db c amount).tier = c.tier + 1) ∧
      (db.getTierData (c.tier + 1) = none →
        Character.add_xp db c amount = { c with xp := c.xp + amount }) ∧
      (∀ td, db.getTierData (c.tier + 1) = some td →
        (c.xp + amount < td.min_xp →
          Character.add_xp db c amount = { c with xp := c.xp + amount }) ∧
        (td.min_xp ≤ c.xp + amount →
          (Character.add_xp db c amount).tier = c.tier + 1 ∧
          (Character.add_xp db c amount).xp = c.xp + amount ∧
          (Character.add_xp db c amount).base_attack = td.attack ∧
          (Character.add_xp db c amount).base_defense = td.defense ∧
          (Character.add_xp db c amount).max_health = td.health ∧
          (Character.add_xp db c amount).title = td.title ∧
          (Character.add_xp db c amount).current_health =
            pyInt ((td.health : ℚ) *
              ((c.current_health : ℚ) / (c.max_health : ℚ))) ∧
          (0 ≤ td.health → 0 ≤ c.current_health →
            (Character.add_xp db c amount).current_health =
              ⌊(td.health : ℚ) * ((c.current_health : ℚ) / (c.max_health : ℚ))⌋)))) := by
  constructor
  · intro hneg
    simp [Character.add_xp, hneg]
  · intro hpos
    have hnn : ¬ amount < 0 := by omega
    rw [Character.add_xp, if_neg hnn]
    set c1 : Character := { c with xp := c.xp + amount } with hc1
    have htier1 : c1.tier = c.tier := rfl
    have hxp1 : c1.xp = c.xp + amount := rfl
    rw [Character.check_level_up]
    cases hdb : db.getTierData (c1.tier + 1) with
    | none =>
      refine ⟨rfl, Or.inl rfl, fun _ => rfl, ?_⟩
      intro td htd
      exact Option.noConfusion htd
    | some td =>
      dsimp only
      by_cases hth : td.min_xp ≤ c1.xp
      · rw [if_pos hth]
        have hlev : Character.level_up db c1 =
            { c1 with
                tier := c1.tier + 1, title := td.title, base_attack := td.attack,
                base_defense := td.defense, max_health := td.health,
                current_health :=
                  pyInt ((td.health : ℚ) *
                    ((c1.current_health : ℚ) / (c1.max_health : ℚ))),
                special_ability := td.special_ability } := by
          rw [Character.level_up, Character.load_stats]
          have : db.getTierData ({ c1 with tier := c1.tier + 1 } : Character).tier = some td := hdb
          rw [this]
          have hmz : ¬ c1.max_health = 0 := by
            have : c1.max_health = c.max_health := rfl
            omega
          simp only [if_neg hmz]
        rw [hlev]
        refine ⟨rfl, Or.inr rfl, ?_, ?_⟩
        · intro habs
          exact Option.noConfusion habs
        · intro td2 htd2
          have htdeq : td2 = td := (Option.some.inj htd2).symm
          subst htdeq
          constructor
          · intro hlt
            exact absurd hth (by omega)
          · intro _
            refine ⟨rfl, rfl, rfl, rfl, rfl, rfl, rfl, ?_⟩
            intro hh hch
            have hfrac : (0 : ℚ) ≤ (td2.health : ℚ) *
                ((c.current_health : ℚ) / (c.max_health : ℚ)) := by
              apply mul_nonneg
              · exact_mod_cast hh
              · apply div_nonneg
                · exact_mod_cast hch
                · exact_mod_cast le_of_lt hmax
            exact pyInt_of_nonneg hfrac
      · rw [if_neg hth]
        refine ⟨rfl, Or.inl rfl, fun habs => ?_, ?_⟩
        · exact Option.noConfusion habs
        · intro td2 htd2
          have htdeq : td2 = td := (Option.some.inj htd2).symm
          subst htdeq
          constructor
          · intro _
            rfl
          · intro hge
            exact absurd hge (by omega)

/-- Tier-2 catalog row used by concrete level-up checks. -/
def tier2Data : TierData :=
  { tier := 2, title := "Adept", attack := 3, defense := 2, health := 30,
    min_xp := 100, weapon := none, armor := none, special_ability := "none" }

/-- A catalog exposing only the tier-2 row. -/
def dbW : Db :=
  { getItem := fun _ => none, getEnemy := fun _ => none,
    getTierData := fun t => if t = 2 then some tier2Data else none }

theorem C7_add_xp_single_tier_witness :
    ((250 : Int) < 0 → Character.add_xp dbW plainFighter 250 = plainFighter) ∧
    ((0 : Int) ≤ 250 →
      (Character.add_xp dbW plainFighter 250).xp = plainFighter.xp + 250 ∧
      ((Character.add_xp dbW plainFighter 250).tier = plainFighter.tier ∨
        (Character.add_xp dbW plainFighter 250).tier = plainFighter.tier + 1) ∧
      (dbW.getTierData (plainFighter.tier + 1) = none →
        Character.add_xp dbW plainFighter 250 = { plainFighter with xp := plainFighter.xp + 250 }) ∧
      (∀ td, dbW.getTierData (plainFighter.tier + 1) = some td →
        (plainFighter.xp + 250 < td.min_xp →
          Character.add_xp dbW plainFighter 250 =
            { plainFighter with xp := plainFighter.xp + 250 }) ∧
        (td.min_xp ≤ plainFighter.xp + 250 →
          (Character.add_xp dbW plainFighter 250).tier = plainFighter.tier + 1 ∧
          (Character.add_xp dbW plainFighter 250).xp = plainFighter.xp + 250 ∧
          (Character.add_xp dbW plainFighter 250).base_attack = td.attack ∧
          (Character.add_xp dbW plainFighter 250).base_defense = td.defense ∧
          (Character.add_xp dbW plainFighter 250).max_health = td.health ∧
          (Character.add_xp dbW plainFighter 250).title = td.title ∧
          (Character.add_xp dbW plainFighter 250).current_health =
            pyInt ((td.health : ℚ) *
              ((plainFighter.current_health : ℚ) / (plainFighter.max_health : ℚ))) ∧
          (0 ≤ td.health → 0 ≤ plainFighter.current_health →
            (Character.add_xp dbW plainFighter 250).current_health =
              ⌊(td.health : ℚ) *
                ((plainFighter.current_health : ℚ) / (plainFighter.max_health : ℚ))⌋)))) := by
  exact C7_add_xp_single_tier dbW plainFighter 250 (by decide)

theorem remove_item_money (c : Character) (item : Item) :
    (c.remove_item item).2.money = c.money := by
  unfold Character.remove_item
  cases c.inventory.findIdx? (fun i => i.name = item.name) <;> rfl

theorem sell_value_le (item : Item) (h : 1 ≤ item.price_copper) :
    Merchant.get_item_value item ≤ item.price_copper := by
  unfold Merchant.get_item_value
  have hnn : (0 : ℚ) ≤ (item.price_copper : ℚ) * (1 / 2) := by
    apply mul_nonneg
    · exact_mod_cast le_trans zero_le_one h
    · norm_num
  rw [pyInt_of_nonneg hnn]
  apply max_le h
  have hle : (item.price_copper : ℚ) * (1 / 2) ≤ ((item.price_copper : Int) : ℚ) := by
    have h0 : (0 : ℚ) ≤ (item.price_copper : ℚ) := by exact_mod_cast le_trans zero_le_one h
    linarith
  calc ⌊(item.price_copper : ℚ) * (1 / 2)⌋ ≤ ⌊((item.price_copper : Int) : ℚ)⌋ :=
        Int.floor_le_floor hle
    _ = item.price_copper := Int.floor_intCast _

/-- C8: a successful buy of a stocked item followed by selling that same item
back never leaves the player richer — the sell credit
`max(1, floor(price × 0.5))` never exceeds the stocked price (≥ 1) that was
debited; a sell of an item not in the seller's inventory fails with no state
change; sold items are not added to the merchant's stock; and every stocked
price produced by the ±20% variation is at least 1. -/
theorem C8_buy_sell_roundtrip (m : Merchant) (p : Character) (iname : String) (item : Item)
    (hfind : m.inventory.find? (fun i => i.name == iname) = some item)
    (hprice : 1 ≤ item.price_copper)
    (hbuy : (m.buy_item p iname).1 = true) :
    ((m.buy_item p iname).2.1.sell_item (m.buy_item p iname).2.2 item).2.2.money ≤ p.money ∧
    ((m.buy_item p iname).2.1.sell_item (m.buy_item p iname).2.2 item).1 = true ∧
    ((m.buy_item p iname).2.1.sell_item (m.buy_item p iname).2.2 item).2.1 =
      (m.buy_item p iname).2.1 ∧
    Merchant.get_item_value item ≤ item.price_copper ∧
    (∀ (m2 : Merchant) (p2 : Character) (it : Item), it ∉ p2.inventory →
      m2.sell_item p2 it = (false, m2, p2)) ∧
    (∀ (it : Item) (u : ℚ), 1 ≤ (apply_price_variation it u).price_copper) := by
  have hbuyeq : m.buy_item p iname =
      if ¬ p.can_afford item.price_copper then (false, m, p)
      else (true, { m with inventory := m.inventory.erase item },
        Character.add_item { p with money := p.money - item.price_copper } item) := by
    unfold Merchant.buy_item
    rw [hfind]
  by_cases hcan : p.can_afford item.price_copper = true
  · rw [if_neg (not_not_intro hcan)] at hbuyeq
    rw [hbuyeq]
    have hmem : item ∈ (Character.add_item
        { p with money := p.money - item.price_copper } item).inventory := by
      unfold Character.add_item
      simp
    have hsell : Merchant.sell_item { m with inventory := m.inventory.erase item }
        (Character.add_item { p with money := p.money - item.price_copper } item) item =
        (true, { m with inventory := m.inventory.erase item },
          (Character.remove_item
            { (Character.add_item { p with money := p.money - item.price_copper } item) with
              money := (Character.add_item { p with money := p.money - item.price_copper }
                item).money + Merchant.get_item_value item } item).2) := by
      unfold Merchant.sell_item
      rw [if_pos hmem]
    rw [hsell]
    have hsv := sell_value_le item hprice
    refine ⟨?_, rfl, rfl, hsv, ?_, ?_⟩
    · rw [remove_item_money]
      have h2 : ∀ (cX : Character) (v : Int),
          ({ cX with money := cX.money + v } : Character).money = cX.money + v :=
        fun _ _ => rfl
      rw [h2]
      have hmoney : (Character.add_item
          { p with money := p.money - item.price_copper } item).money =
          p.money - item.price_copper := rfl
      rw [hmoney]
      omega
    · intro m2 p2 it hnot
      unfold Merchant.sell_item
      rw [if_neg hnot]
    · intro it u
      exact le_max_left 1 _
  · rw [if_pos hcan] at hbuyeq
    rw [hbuyeq] at hbuy
    exact absurd hbuy (by simp)

/-- A stocked weapon used by concrete merchant checks. -/
def wand : Item :=
  { name := "Wand", type := "weapon", tier := 1, price_copper := 10,
    base_damage_min := 1, base_damage_max := 4, base_defense := 0,
    effect := "none" }

/-- A merchant stocking exactly one wand. -/
def mW : Merchant := { inventory := [wand] }

/-- A buyer who can afford the wand. -/
def richPlayer : Character := { plainFighter with money := 100 }

theorem C8_buy_sell_roundtrip_witness :
    ((mW.buy_item richPlayer "Wand").2.1.sell_item
        (mW.buy_item richPlayer "Wand").2.2 wand).2.2.money ≤ richPlayer.money ∧
    ((mW.buy_item richPlayer "Wand").2.1.sell_item
        (mW.buy_item richPlayer "Wand").2.2 wand).1 = true ∧
    ((mW.buy_item richPlayer "Wand").2.1.sell_item
        (mW.buy_item richPlayer "Wand").2.2 wand).2.1 =
      (mW.buy_item richPlayer "Wand").2.1 ∧
    Merchant.get_item_value wand ≤ wand.price_copper ∧
    (∀ (m2 : Merchant) (p2 : Character) (it : Item), it ∉ p2.inventory →
      m2.sell_item p2 it = (false, m2, p2)) ∧
    (∀ (it : Item) (u : ℚ), 1 ≤ (apply_price_variation it u).price_copper) := by
  exact C8_buy_sell_roundtrip mW richPlayer "Wand" wand rfl (by decide) rfl

/-! ### Snapshot round trips (C9) -/

/-- An enemy is *live* when its stats are exactly what `_load_stats` would
reload from the catalog (true of every enemy the game constructs, since only
`current_health` ever changes afterwards and `_load_stats` preserves it), and
it carries the constructor's `is_player = False`. -/
def EnemyLive (db : Db) (e : Enemy) : Prop :=
  Enemy.load_stats db e = some e ∧ e.is_player = false

/-- A character is *live* when its tier-derived stats are exactly what
`_load_stats` reloads and it is flagged as the player. -/
def CharacterLive (db : Db) (c : Character) : Prop :=
  Character.load_stats db c = some c ∧ c.is_player = true

theorem reconstructEnemy_roundtrip (db : Db) (e : Enemy) (h : EnemyLive db e) :
    reconstructEnemy db (Enemy.to_dict e) = some e := by
  obtain ⟨hload, hpl⟩ := h
  unfold Enemy.load_stats at hload
  cases hdb : db.getEnemy e.name with
  | none => rw [hdb] at hload; exact Option.noConfusion hload
  | some d =>
    rw [hdb] at hload
    have hinj := Option.some.inj hload
    unfold reconstructEnemy Enemy.construct Enemy.load_stats Enemy.to_dict
    dsimp only
    rw [hdb]
    dsimp only
    apply congrArg some
    have h1 := congrArg Enemy.attack hinj
    have h2 := congrArg Enemy.defense hinj
    have h3 := congrArg Enemy.health hinj
    have h4 := congrArg Enemy.xp_value hinj
    have h5 := congrArg Enemy.min_copper hinj
    have h6 := congrArg Enemy.max_copper hinj
    have h7 := congrArg Enemy.common_drops hinj
    have h8 := congrArg Enemy.rare_drops hinj
    have h9 := congrArg Enemy.spawn_chance hinj
    dsimp only at h1 h2 h3 h4 h5 h6 h7 h8 h9
    cases e
    simp only at h1 h2 h3 h4 h5 h6 h7 h8 h9 hpl
    subst hpl
    subst h1
    subst h2
    subst h3
    subst h4
    subst h5
    subst h6
    subst h7
    subst h8
    subst h9
    simp

theorem construct_character_roundtrip (db : Db) (c : Character) (h : CharacterLive db c)
    (hne : c.inventory ≠ [] ∨ c.equipped_weapon ≠ none) :
    Character.construct db (Character.to_dict c) = some c := by
  obtain ⟨hload, hpl⟩ := h
  unfold Character.load_stats at hload
  cases hdb : db.getTierData c.tier with
  | none => rw [hdb] at hload; exact Option.noConfusion hload
  | some td =>
    rw [hdb] at hload
    have hinj := Option.some.inj hload
    have h1 := congrArg Character.title hinj
    have h2 := congrArg Character.base_attack hinj
    have h3 := congrArg Character.base_defense hinj
    have h4 := congrArg Character.max_health hinj
    have h5 := congrArg Character.special_ability hinj
    dsimp only at h1 h2 h3 h4 h5
    have hguard : ¬ (c.inventory = [] ∧ c.equipped_weapon = none) := by
      rcases hne with h | h
      · exact fun hc => h hc.1
      · exact fun hc => h hc.2
    unfold Character.construct Character.load_stats Character.to_dict
    dsimp only
    rw [hdb]
    dsimp only
    rw [if_neg hguard]
    apply congrArg some
    cases c
    simp only at h1 h2 h3 h4 h5 hpl
    subst hpl
    subst h1
    subst h2
    subst h3
    subst h4
    subst h5
    rfl

theorem filterMap_reconstruct (db : Db) (l : List Enemy) (h : ∀ e ∈ l, EnemyLive db e) :
    (l.map Enemy.to_dict).filterMap (reconstructEnemy db) = l := by
  induction l with
  | nil => rfl
  | cons e es ih =>
    rw [List.map_cons, List.filterMap_cons,
      reconstructEnemy_roundtrip db e (h e (List.mem_cons_self e es)),
      ih fun x hx => h x (List.mem_cons_of_mem e hx)]

theorem reconstructRoom_roundtrip (db : Db) (rm : Room)
    (h : ∀ e ∈ rm.enemies, EnemyLive db e) :
    reconstructRoom db (Room.to_dict rm) = rm := by
  cases rm with
  | mk enemies items ic iv hm mv ht tl ie doors =>
    unfold reconstructRoom Room.to_dict
    dsimp only
    rw [filterMap_reconstruct db enemies h]

theorem construct_dungeon_roundtrip (db : Db) (dg : Dungeon)
    (htier : 1 ≤ dg.tier) (hsize : 5 ≤ dg.size) (hpos : inBounds dg.size dg.player_pos)
    (hlive : ∀ p, inBounds dg.size p → ∀ e ∈ (dg.rooms p).enemies, EnemyLive db e) :
    Option.map Dungeon.to_dict (Dungeon.construct db (Dungeon.to_dict dg)) =
      some (Dungeon.to_dict dg) := by
  have hrows : (Dungeon.to_dict dg).rooms =
      (List.range dg.size).map fun (y : Nat) =>
        (List.range dg.size).map fun (x : Nat) =>
          Room.to_dict (dg.rooms ((x : Int), (y : Int))) := rfl
  have ht : ¬ (Dungeon.to_dict dg).tier < 1 := by
    show ¬ dg.tier < 1
    omega
  have hs : ¬ (Dungeon.to_dict dg).size < 5 := by
    show ¬ dg.size < 5
    omega
  have hr : ¬ (Dungeon.to_dict dg).rooms = [] := by
    rw [hrows]
    intro hempty
    rw [List.map_eq_nil, List.range_eq_nil] at hempty
    omega
  unfold Dungeon.construct
  rw [if_neg ht, if_neg hs, if_neg hr]
  dsimp only
  apply congrArg some
  unfold Dungeon.to_dict
  dsimp only
  congr 1
  · obtain ⟨hx0, hx1, hy0, hy1⟩ := hpos
    rw [Prod.ext_iff]
    constructor <;> (simp only) <;> omega
  · apply List.map_congr_left
    intro y hy
    apply List.map_congr_left
    intro x hx
    rw [List.mem_range] at hy hx
    have hxy : inBounds dg.size ((x : Int), (y : Int)) := by
      refine ⟨Int.natCast_nonneg x, ?_, Int.natCast_nonneg y, ?_⟩ <;>
        exact_mod_cast (by omega : _)
    have hload : load_rooms db ((List.range dg.size).map fun (j : Nat) =>
        (List.range dg.size).map fun (i : Nat) =>
          Room.to_dict (dg.rooms ((i : Int), (j : Int)))) ((x : Int), (y : Int)) =
        reconstructRoom db (Room.to_dict (dg.rooms ((x : Int), (y : Int)))) := by
      unfold load_rooms
      dsimp only
      rw [if_pos ⟨Int.natCast_nonneg x, Int.natCast_nonneg y⟩]
      simp only [Int.toNat_natCast, List.get?_map, List.get?_range hy,
        List.get?_range hx, Option.map_some']
    rw [hload, reconstructRoom_roundtrip db _ (hlive _ hxy)]

/-- Tier-1 catalog row with no starting gear. -/
def tier1Data : TierData :=
  { tier := 1, title := "Novice", attack := 1, defense := 1, health := 20,
    min_xp := 0, weapon := none, armor := none, special_ability := "none" }

/-- A goblin catalog row whose values already sit inside every `_load_stats`
clamp. -/
def goblinData : EnemyData :=
  { attack := 2, defense := 1, health := 8, xp_value := 10, min_copper := 1,
    max_copper := 5, common_drops := [], rare_drops := [],
    spawn_chance := 1/2 }

/-- The catalog used by the concrete round-trip checks: no items, one enemy
row, one tier row. -/
def dbC : Db :=
  { getItem := fun _ => none,
    getEnemy := fun n => if n = "Goblin" then some goblinData else none,
    getTierData := fun t => if t = 1 then some tier1Data else none }

/-- The live goblin that `Enemy("Goblin", 1)` builds from `goblinData`. -/
def goblin : Enemy :=
  { name := "Goblin", tier := 1, current_health := 8, attack := 2,
    defense := 1, health := 8, xp_value := 10, min_copper := 1,
    max_copper := 5, common_drops := [], rare_drops := [],
    spawn_chance := 1/2, is_player := false }

/-- A live tier-1 character holding nothing — the shape whose reconstruction
re-runs `_initialize_starting_equipment`. -/
def cEmpty : Character :=
  { name := "empty", age := 20, tier := 1, xp := 0, current_health := 20,
    inventory := [], equipped_weapon := none, equipped_armor := none,
    equipped_shield := none, money := 50, is_player := true,
    title := "Novice", base_attack := 1, base_defense := 1, max_health := 20,
    special_ability := "none" }

/-- C9, counterexample: `cEmpty` is live, yet reconstructing it from its own
snapshot re-runs `_initialize_starting_equipment` (its inventory is empty and
no weapon is equipped), which resets `money` from 50 to 100 — so the second
snapshot differs from the first and the round trip fails. -/
theorem C9_snapshot_roundtrip_counterexample :
    CharacterLive dbC cEmpty ∧
    Option.map Character.to_dict (Character.construct dbC (Character.to_dict cEmpty)) ≠
      some (Character.to_dict cEmpty) :=
  ⟨⟨by decide, rfl⟩, by decide⟩

/-- C9 (amended): the snapshot round trip
`snapshot(reconstruct(snapshot(entity))) = snapshot(entity)` holds for every
live Enemy, Room, and Dungeon — but for a live Character only under the extra
proviso that its inventory is non-empty or a weapon is equipped; otherwise
`__post_init__` re-runs `_initialize_starting_equipment` and the snapshot
changes. -/
theorem C9_snapshot_roundtrip_amended (db : Db) (e : Enemy) (c : Character)
    (rm : Room) (dg : Dungeon)
    (he : EnemyLive db e)
    (hc : CharacterLive db c)
    (hcne : c.inventory ≠ [] ∨ c.equipped_weapon ≠ none)
    (hrm : ∀ x ∈ rm.enemies, EnemyLive db x)
    (htier : 1 ≤ dg.tier) (hsize : 5 ≤ dg.size)
    (hpos : inBounds dg.size dg.player_pos)
    (hdg : ∀ p, inBounds dg.size p → ∀ x ∈ (dg.rooms p).enemies, EnemyLive db x) :
    Option.map Enemy.to_dict (reconstructEnemy db (Enemy.to_dict e)) =
      some (Enemy.to_dict e) ∧
    Option.map Character.to_dict (Character.construct db (Character.to_dict c)) =
      some (Character.to_dict c) ∧
    Room.to_dict (reconstructRoom db (Room.to_dict rm)) = Room.to_dict rm ∧
    Option.map Dungeon.to_dict (Dungeon.construct db (Dungeon.to_dict dg)) =
      some (Dungeon.to_dict dg) := by
  refine ⟨?_, ?_, ?_, construct_dungeon_roundtrip db dg htier hsize hpos hdg⟩
  · rw [reconstructEnemy_roundtrip db e he]
    rfl
  · rw [construct_character_roundtrip db c hc hcne]
    rfl
  · rw [reconstructRoom_roundtrip db rm hrm]

/-- A live character that keeps its loadout on reconstruction. -/
def cLive : Character := { cEmpty with inventory := [wand] }

/-- A room holding one live goblin. -/
def rGob : Room := { Room.default with enemies := [goblin] }

/-- The goblin is live: `_load_stats` reloads it unchanged. -/
theorem goblin_live : EnemyLive dbC goblin := by
  constructor
  · show Enemy.load_stats dbC goblin = some goblin
    unfold Enemy.load_stats dbC goblin goblinData
    norm_num [cleanDrops]
  · rfl

theorem C9_snapshot_roundtrip_amended_witness :
    (EnemyLive dbC goblin ∧ CharacterLive dbC cLive ∧
      (cLive.inventory ≠ [] ∨ cLive.equipped_weapon ≠ none)) ∧
    Option.map Enemy.to_dict (reconstructEnemy dbC (Enemy.to_dict goblin)) =
      some (Enemy.to_dict goblin) ∧
    Option.map Character.to_dict (Character.construct dbC (Character.to_dict cLive)) =
      some (Character.to_dict cLive) ∧
    Room.to_dict (reconstructRoom dbC (Room.to_dict rGob)) = Room.to_dict rGob ∧
    Option.map Dungeon.to_dict (Dungeon.construct dbC (Dungeon.to_dict sampleDungeon)) =
      some (Dungeon.to_dict sampleDungeon) := by
  have hrm : ∀ x ∈ rGob.enemies, EnemyLive dbC x := by
    intro x hx
    have hx1 : x = goblin := by
      simpa [rGob, Room.default] using hx
    subst hx1
    exact goblin_live
  have hdg : ∀ p, inBounds sampleDungeon.size p →
      ∀ x ∈ (sampleDungeon.rooms p).enemies, EnemyLive dbC x := by
    intro p _ x hx
    exact absurd hx (List.not_mem_nil x)
  exact ⟨⟨goblin_live, ⟨by decide, rfl⟩, Or.inl (by decide)⟩,
    C9_snapshot_roundtrip_amended dbC goblin cLive rGob sampleDungeon
      goblin_live ⟨by decide, rfl⟩ (Or.inl (by decide))
      hrm (by decide) (by decide) (by decide) hdg⟩
